import Mathlib

set_option autoImplicit false
set_option synthInstance.maxSize 512

/-!
Shallow embedding of the `rmf_workcell_editor` save / placement / workcell-activation
slice (`workcell/save.rs`, `workcell/workcell.rs`, `interaction/select/place_object.rs`).

Entities are natural numbers.  The bevy `World` is modelled as a record of component
tables (total functions from entities to optional component payloads) together with the
list of live entities a query iterates over.  Component payloads whose internals come
from the external `rmf_workcell_format` crate (anchors, poses, masses, asset sources,
primitive shapes, ...) are opaque to this slice, so they are modelled as plain naturals
carried through unchanged.  `BTreeMap<u32, V>` is modelled as a key-sorted association
list with the same insert/lookup behaviour.  Hierarchy traversals (`iter_descendants`,
`AncestorIter`) take an explicit fuel argument, standing for the engine iterator running
to completion on a finite well-formed hierarchy.
-/

namespace RmfWorkcell

/-- Entity identifier of the ECS. -/
abbrev Entity := Nat

/-- Opaque payload of an `Anchor` component (defined in `rmf_workcell_format`). -/
abbrev Anchor := Nat

/-- Opaque payload of a `Pose` component. -/
abbrev Pose := Nat

/-- Opaque payload of a `Mass` component. -/
abbrev Mass := Nat

/-- Opaque payload of a `Moment` component. -/
abbrev Moment := Nat

/-- Opaque payload of a `JointProperties` component. -/
abbrev JointProperties := Nat

/-- Opaque payload of an `AssetSource` component. -/
abbrev AssetSource := Nat

/-- Opaque payload of a `PrimitiveShape` component. -/
abbrev PrimitiveShape := Nat

/-- Opaque payload of a `Scale` component. -/
abbrev Scale := Nat

/-- Opaque payload of a `NameInWorkcell` component. -/
abbrev NameInWorkcell := Nat

/-- Opaque payload of a `NameOfWorkcell` component. -/
abbrev NameOfWorkcell := Nat

/-- Model of Rust `BTreeMap<u32, V>`: a key-sorted association list. -/
abbrev BTreeMap (V : Type) := List (Nat × V)

/-- Rust `BTreeMap::insert`: replaces the value at an existing key, keeps keys sorted. -/
def btreeInsert {V : Type} : BTreeMap V → Nat → V → BTreeMap V
  | [], k, v => [(k, v)]
  | (k₀, v₀) :: t, k, v =>
    if k < k₀ then (k, v) :: (k₀, v₀) :: t
    else if k = k₀ then (k, v) :: t
    else (k₀, v₀) :: btreeInsert t k v

/-- Rust `BTreeMap::get`. -/
def btreeLookup {V : Type} : BTreeMap V → Nat → Option V
  | [], _ => none
  | (k₀, v₀) :: t, k => if k = k₀ then some v₀ else btreeLookup t k

/-- The bevy `World`, restricted to the component tables this slice touches.
`entities` is the list of live entities, in the query-iteration order of the engine. -/
structure World where
  entities : List Entity
  children : Entity → List Entity
  parent : Entity → Option Entity
  frameMarker : Entity → Bool
  visualMeshMarker : Entity → Bool
  collisionMeshMarker : Entity → Bool
  pending : Entity → Bool
  jointProperties : Entity → Option JointProperties
  moment : Entity → Option Moment
  mass : Entity → Option Mass
  anchor : Entity → Option Anchor
  pose : Entity → Option Pose
  assetSource : Entity → Option AssetSource
  primitiveShape : Entity → Option PrimitiveShape
  scale : Entity → Option Scale
  nameInWorkcell : Entity → Option NameInWorkcell
  nameOfWorkcell : Entity → Option NameOfWorkcell
  siteID : Entity → Option Nat

/-- Breadth-first worklist traversal behind the bevy iterator `Query<&Children>::iter_descendants`:
pop the front of the queue, yield it, push its children at the back. -/
def descendantsBFS (children : Entity → List Entity) : Nat → List Entity → List Entity
  | 0, _ => []
  | _ + 1, [] => []
  | fuel + 1, e :: queue => e :: descendantsBFS children fuel (queue ++ children e)

/-- The call `q_children.iter_descendants(root)`. -/
def iterDescendants (w : World) (fuel : Nat) (root : Entity) : List Entity :=
  descendantsBFS w.children fuel (w.children root)

/-- The `q_used_entities` query of `assign_site_ids`: one of the five exportable
markers (`FrameMarker`, `JointProperties`, `Moment`, `VisualMeshMarker`,
`CollisionMeshMarker`) and not `Pending`. -/
def usedEntity (w : World) (e : Entity) : Bool :=
  (w.frameMarker e || (w.jointProperties e).isSome || (w.moment e).isSome
      || w.visualMeshMarker e || w.collisionMeshMarker e)
    && !w.pending e

/-- The descendants of the root kept by the `q_used_entities` filter, in traversal
order. -/
def usedDescendants (w : World) (fuel : Nat) (root : Entity) : List Entity :=
  (iterDescendants w fuel root).filter (usedEntity w)

/-- The `new_entities` vector of `assign_site_ids`: the workcell root followed by its
qualifying descendants in traversal order. -/
def newEntities (w : World) (fuel : Nat) (workcell : Entity) : List Entity :=
  workcell :: usedDescendants w fuel workcell

/-- The call `world.entity_mut(e).insert(SiteID(id))`. -/
def setSiteID (w : World) (e : Entity) (id : Nat) : World :=
  { w with siteID := fun x => if x = e then some id else w.siteID x }

/-- Function `assign_site_ids`: number the root and every qualifying descendant by their
position in `new_entities`. -/
def assign_site_ids (w : World) (fuel : Nat) (workcell : Entity) : World :=
  ((newEntities w fuel workcell).enum).foldl (fun acc p => setSiteID acc p.2 p.1) w

/-- Folding the enumerated writes never touches an entity outside the list. -/
theorem foldl_setSiteID_not_mem (l : List (Nat × Entity)) (w : World) (e : Entity)
    (h : ∀ p ∈ l, p.2 ≠ e) :
    (l.foldl (fun acc p => setSiteID acc p.2 p.1) w).siteID e = w.siteID e := by
  induction l generalizing w with
  | nil => rfl
  | cons a t ih =>
    have ha : a.2 ≠ e := h a (List.mem_cons_self a t)
    have ht : ∀ p ∈ t, p.2 ≠ e := fun p hp => h p (List.mem_cons_of_mem a hp)
    simp only [List.foldl_cons]
    rw [ih _ ht]
    simp only [setSiteID]
    exact if_neg (fun hc => ha (Eq.symm hc))

/-- Folding the enumerated writes preserves the presence of a site ID. -/
theorem foldl_setSiteID_isSome (l : List (Nat × Entity)) (w : World) (e : Entity)
    (h : (w.siteID e).isSome = true) :
    ((l.foldl (fun acc p => setSiteID acc p.2 p.1) w).siteID e).isSome = true := by
  induction l generalizing w with
  | nil => exact h
  | cons a t ih =>
    simp only [List.foldl_cons]
    apply ih
    by_cases hc : e = a.2
    · simp [setSiteID, hc]
    · simpa [setSiteID, hc] using h

/-- Every pair yielded by `enumFrom` has its element in the underlying list. -/
theorem snd_mem_of_mem_enumFrom {l : List Entity} {n : Nat} {p : Nat × Entity}
    (h : p ∈ l.enumFrom n) : p.2 ∈ l := by
  induction l generalizing n with
  | nil => simp [List.enumFrom] at h
  | cons a t ih =>
    simp only [List.enumFrom, List.mem_cons] at h
    rcases h with h | h
    · subst h
      exact List.mem_cons_self a t
    · exact List.mem_cons_of_mem a (ih h)

/-- After folding the writes for `l.enumFrom n` over a duplicate-free `l`, the entity at
position `i` holds site ID `n + i`. -/
theorem foldl_setSiteID_get (l : List Entity) (n : Nat) (w : World) (i : Nat)
    (hi : i < l.length) (hnd : l.Nodup) :
    (((l.enumFrom n).foldl (fun acc p => setSiteID acc p.2 p.1) w).siteID
      (l.get ⟨i, hi⟩)) = some (n + i) := by
  induction l generalizing n w i with
  | nil => exact absurd hi (by simp)
  | cons a t ih =>
    have hnd' : t.Nodup := hnd.of_cons
    cases i with
    | zero =>
      have hna : a ∉ t := (List.nodup_cons.mp hnd).1
      simp only [List.enumFrom, List.foldl_cons, List.get]
      rw [foldl_setSiteID_not_mem]
      · simp [setSiteID]
      · intro p hp hpe
        exact hna (hpe ▸ snd_mem_of_mem_enumFrom hp)
    | succ j =>
      have hj : j < t.length := Nat.lt_of_succ_lt_succ hi
      simp only [List.enumFrom, List.foldl_cons, List.get]
      have := ih (n + 1) (setSiteID w a n) j hj hnd'
      rw [this]
      congr 1
      omega

/-- The site ID assigned by `assign_site_ids` is the position in `new_entities`. -/
theorem assign_site_ids_get (w : World) (fuel : Nat) (root : Entity) (i : Nat)
    (hi : i < (newEntities w fuel root).length) (hnd : (newEntities w fuel root).Nodup) :
    (assign_site_ids w fuel root).siteID ((newEntities w fuel root).get ⟨i, hi⟩)
      = some i := by
  have h0 : (newEntities w fuel root).enum = (newEntities w fuel root).enumFrom 0 := rfl
  have := foldl_setSiteID_get (newEntities w fuel root) 0 w i hi hnd
  rw [Nat.zero_add] at this
  rw [assign_site_ids, h0]
  exact this

/-- C1: on every save, `assign_site_ids` assigns ID 0 to the root, assigns each
qualifying (marker-carrying, non-pending) descendant the next integer in traversal
order, and no two entities of the numbered set share an ID. -/
theorem C1_assign_site_ids_stable_ids (w : World) (fuel : Nat) (root : Entity)
    (hnd : (newEntities w fuel root).Nodup) :
    (assign_site_ids w fuel root).siteID root = some 0 ∧
    (∀ i, (hi : i < (usedDescendants w fuel root).length) →
      (assign_site_ids w fuel root).siteID ((usedDescendants w fuel root).get ⟨i, hi⟩)
        = some (i + 1)) ∧
    (∀ e₁, e₁ ∈ newEntities w fuel root → ∀ e₂, e₂ ∈ newEntities w fuel root →
      e₁ ≠ e₂ →
      (assign_site_ids w fuel root).siteID e₁ ≠ (assign_site_ids w fuel root).siteID e₂) := by
  refine ⟨?_, ?_, ?_⟩
  · have h0 : 0 < (newEntities w fuel root).length := by
      simp [newEntities]
    have := assign_site_ids_get w fuel root 0 h0 hnd
    simpa [newEntities] using this
  · intro i hi
    have hi' : i + 1 < (newEntities w fuel root).length := by
      simpa [newEntities] using Nat.succ_lt_succ hi
    have := assign_site_ids_get w fuel root (i + 1) hi' hnd
    simpa [newEntities] using this
  · intro e₁ h₁ e₂ h₂ hne
    obtain ⟨⟨i, hilt⟩, hie⟩ := List.mem_iff_get.mp h₁
    obtain ⟨⟨j, hjlt⟩, hje⟩ := List.mem_iff_get.mp h₂
    rw [← hie, ← hje, assign_site_ids_get w fuel root i hilt hnd,
      assign_site_ids_get w fuel root j hjlt hnd]
    intro hc
    apply hne
    have hij : i = j := by
      simpa using hc
    rw [← hie, ← hje]
    subst hij
    rfl

/-- A concrete world: root 0 carrying the workcell name, frame child 1 and visual
grandchild 2. -/
def sampleWorld : World where
  entities := [0, 1, 2]
  children := fun e => if e = 0 then [1] else if e = 1 then [2] else []
  parent := fun e => if e = 1 then some 0 else if e = 2 then some 1 else none
  frameMarker := fun e => e == 1
  visualMeshMarker := fun e => e == 2
  collisionMeshMarker := fun _ => false
  pending := fun _ => false
  jointProperties := fun _ => none
  moment := fun _ => none
  mass := fun _ => none
  anchor := fun e => if e = 1 then some 11 else none
  pose := fun e => if e = 2 then some 22 else none
  assetSource := fun e => if e = 2 then some 33 else none
  primitiveShape := fun _ => none
  scale := fun _ => none
  nameInWorkcell := fun e => if e = 1 then some 44 else if e = 2 then some 55 else none
  nameOfWorkcell := fun e => if e = 0 then some 66 else none
  siteID := fun _ => none

/-- C1 witness: the stable-ID theorem applied to the concrete sample world. -/
theorem C1_assign_site_ids_stable_ids_witness :
    (newEntities sampleWorld 5 0).Nodup ∧
    ((assign_site_ids sampleWorld 5 0).siteID 0 = some 0 ∧
    (∀ i, (hi : i < (usedDescendants sampleWorld 5 0).length) →
      (assign_site_ids sampleWorld 5 0).siteID ((usedDescendants sampleWorld 5 0).get ⟨i, hi⟩)
        = some (i + 1)) ∧
    (∀ e₁, e₁ ∈ newEntities sampleWorld 5 0 → ∀ e₂, e₂ ∈ newEntities sampleWorld 5 0 →
      e₁ ≠ e₂ →
      (assign_site_ids sampleWorld 5 0).siteID e₁
        ≠ (assign_site_ids sampleWorld 5 0).siteID e₂)) :=
  ⟨by decide, C1_assign_site_ids_stable_ids sampleWorld 5 0 (by decide)⟩

/-- Iterator `AncestorIter::new(q_parents, entity)`: the chain of `Parent` links above an
entity, nearest first. -/
def ancestors (w : World) : Nat → Entity → List Entity
  | 0, _ => []
  | fuel + 1, e =>
    match w.parent e with
    | none => []
    | some p => p :: ancestors w fuel p

/-- Predicate `parent_in_workcell`: does any ancestor of `e` equal `root`? -/
def parent_in_workcell (w : World) (fuel : Nat) (e root : Entity) : Bool :=
  (ancestors w fuel e).any (fun p => p == root)

/-- Which of the four projection loops produced a log line. -/
inductive PassKind where
  | visual
  | anchor
  | inertial
  | joint
  deriving DecidableEq

/-- The observable log lines (`error!` / `info!` / `warn!`) of this slice. -/
inductive LogEntry where
  | parentNotFound (kind : PassKind) (parent : Entity)
  | devErrorNoGeometry
  | unableToCompileWorkcell (root : Entity)
  | savingTo (path : Nat)
  | unableToSaveFile (path : Nat)
  | saveSuccessful (path : Nat)
  | saveFailed (path : Nat)
  | exportSuccessful (path : Nat)
  | exportFailed (path : Nat)
  | workspaceChangeNotOpenWorkcell (root : Entity)
  | cannotSpawnOutsideWorkspace
  deriving DecidableEq

/-- Type `Parented<u32, T>` of `rmf_workcell_format`. -/
structure Parented (V : Type) where
  parent : Nat
  bundle : V
  deriving DecidableEq

/-- The `Frame` bundle (anchor plus name; the marker field carries no data). -/
structure Frame where
  anchor : Anchor
  name : NameInWorkcell
  deriving DecidableEq

/-- The `Inertia` bundle. -/
structure Inertia where
  center : Pose
  mass : Mass
  moment : Moment
  deriving DecidableEq

/-- The `Joint` bundle. -/
structure Joint where
  name : NameInWorkcell
  properties : JointProperties
  deriving DecidableEq

/-- Type `Geometry`: tagged mesh-with-optional-scale or primitive shape. -/
inductive Geometry where
  | mesh (source : AssetSource) (scale : Option Scale)
  | primitive (shape : PrimitiveShape)
  deriving DecidableEq

/-- The `WorkcellModel` bundle of a visual or collision model. -/
structure WorkcellModel where
  name : NameInWorkcell
  geometry : Geometry
  pose : Pose
  deriving DecidableEq

/-- The `Workcell` document: name plus one `BTreeMap` per payload kind. -/
structure Workcell where
  name : NameOfWorkcell
  frames : BTreeMap (Parented Frame)
  inertias : BTreeMap (Parented Inertia)
  joints : BTreeMap (Parented Joint)
  visuals : BTreeMap (Parented WorkcellModel)
  collisions : BTreeMap (Parented WorkcellModel)
  deriving DecidableEq

/-- Rust `Workcell::default()`. -/
def Workcell.empty : Workcell :=
  ⟨0, [], [], [], [], []⟩

/-- Error type `WorkcellGenerationError`. -/
inductive WorkcellGenerationError where
  | invalidWorkcellEntity (entity : Entity)
  deriving DecidableEq

/-- Result of `generate_workcell`: the (mutated) world, the emitted log, and the
`Result` value. -/
structure GenResult where
  world : World
  log : List LogEntry
  result : Except WorkcellGenerationError Workcell

/-- The `q_models` query row for `e`:
`(&NameInWorkcell, Option<&AssetSource>, Option<&PrimitiveShape>, &Pose, &SiteID,
&Parent, Option<&Scale>)` filtered by a visual or collision marker and not pending. -/
def modelsQuery (w : World) (e : Entity) :
    Option (NameInWorkcell × Option AssetSource × Option PrimitiveShape × Pose × Nat
      × Entity × Option Scale) :=
  match w.nameInWorkcell e, w.pose e, w.siteID e, w.parent e with
  | some name, some pose, some id, some p =>
    if (w.visualMeshMarker e || w.collisionMeshMarker e) && !w.pending e then
      some (name, w.assetSource e, w.primitiveShape e, pose, id, p, w.scale e)
    else none
  | _, _, _, _ => none

/-- The `q_anchors` query row for `e`: `(&Anchor, &NameInWorkcell, &SiteID, &Parent)`
without `Pending`. -/
def anchorsQuery (w : World) (e : Entity) :
    Option (Anchor × NameInWorkcell × Nat × Entity) :=
  match w.anchor e, w.nameInWorkcell e, w.siteID e, w.parent e with
  | some a, some name, some id, some p =>
    if w.pending e then none else some (a, name, id, p)
  | _, _, _, _ => none

/-- The `q_inertials` query row for `e`: `(&Pose, &Mass, &Moment, &SiteID, &Parent)`
without `Pending`. -/
def inertialsQuery (w : World) (e : Entity) :
    Option (Pose × Mass × Moment × Nat × Entity) :=
  match w.pose e, w.mass e, w.moment e, w.siteID e, w.parent e with
  | some pose, some mass, some moment, some id, some p =>
    if w.pending e then none else some (pose, mass, moment, id, p)
  | _, _, _, _, _ => none

/-- The `q_joints` query row for `e`: `(&JointProperties, &NameInWorkcell, &SiteID,
&Parent)` without `Pending`. -/
def jointsQuery (w : World) (e : Entity) :
    Option (JointProperties × NameInWorkcell × Nat × Entity) :=
  match w.jointProperties e, w.nameInWorkcell e, w.siteID e, w.parent e with
  | some props, some name, some id, some p =>
    if w.pending e then none else some (props, name, id, p)
  | _, _, _, _ => none

/-- Body of the visuals/collisions loop of `generate_workcell`, for one query row. -/
def processModel (w : World) (fuel : Nat) (root : Entity)
    (acc : Workcell × List LogEntry) (e : Entity) : Workcell × List LogEntry :=
  match modelsQuery w e with
  | none => acc
  | some (name, source, primitive, pose, id, parentEnt, scale) =>
    if parent_in_workcell w fuel e root then
      match w.siteID parentEnt with
      | none => (acc.1, acc.2 ++ [LogEntry.parentNotFound PassKind.visual parentEnt])
      | some parentID =>
        match source with
        | some src =>
          let entry : Parented WorkcellModel :=
            ⟨parentID, ⟨name, Geometry.mesh src scale, pose⟩⟩
          if w.visualMeshMarker e then
            ({ acc.1 with visuals := btreeInsert acc.1.visuals id entry }, acc.2)
          else if w.collisionMeshMarker e then
            ({ acc.1 with collisions := btreeInsert acc.1.collisions id entry }, acc.2)
          else acc
        | none =>
          match primitive with
          | some prim =>
            let entry : Parented WorkcellModel :=
              ⟨parentID, ⟨name, Geometry.primitive prim, pose⟩⟩
            if w.visualMeshMarker e then
              ({ acc.1 with visuals := btreeInsert acc.1.visuals id entry }, acc.2)
            else if w.collisionMeshMarker e then
              ({ acc.1 with collisions := btreeInsert acc.1.collisions id entry }, acc.2)
            else acc
          | none => (acc.1, acc.2 ++ [LogEntry.devErrorNoGeometry])
    else acc

/-- Body of the anchors loop of `generate_workcell`, for one query row. -/
def processAnchor (w : World) (fuel : Nat) (root : Entity)
    (acc : Workcell × List LogEntry) (e : Entity) : Workcell × List LogEntry :=
  match anchorsQuery w e with
  | none => acc
  | some (a, name, id, parentEnt) =>
    if parent_in_workcell w fuel e root then
      match w.siteID parentEnt with
      | none => (acc.1, acc.2 ++ [LogEntry.parentNotFound PassKind.anchor parentEnt])
      | some parentID =>
        ({ acc.1 with frames := btreeInsert acc.1.frames id ⟨parentID, ⟨a, name⟩⟩ },
          acc.2)
    else acc

/-- Body of the inertials loop of `generate_workcell`, for one query row. -/
def processInertial (w : World) (fuel : Nat) (root : Entity)
    (acc : Workcell × List LogEntry) (e : Entity) : Workcell × List LogEntry :=
  match inertialsQuery w e with
  | none => acc
  | some (pose, mass, moment, id, parentEnt) =>
    if parent_in_workcell w fuel e root then
      match w.siteID parentEnt with
      | none => (acc.1, acc.2 ++ [LogEntry.parentNotFound PassKind.inertial parentEnt])
      | some parentID =>
        ({ acc.1 with
            inertias := btreeInsert acc.1.inertias id ⟨parentID, ⟨pose, mass, moment⟩⟩ },
          acc.2)
    else acc

/-- Body of the joints loop of `generate_workcell`, for one query row. -/
def processJoint (w : World) (fuel : Nat) (root : Entity)
    (acc : Workcell × List LogEntry) (e : Entity) : Workcell × List LogEntry :=
  match jointsQuery w e with
  | none => acc
  | some (props, name, id, parentEnt) =>
    if parent_in_workcell w fuel e root then
      match w.siteID parentEnt with
      | none => (acc.1, acc.2 ++ [LogEntry.parentNotFound PassKind.joint parentEnt])
      | some parentID =>
        ({ acc.1 with joints := btreeInsert acc.1.joints id ⟨parentID, ⟨name, props⟩⟩ },
          acc.2)
    else acc

/-- The four projection loops of `generate_workcell`, in source order:
visuals/collisions, anchors, inertials, joints. -/
def projectionPasses (w₁ : World) (fuel : Nat) (root : Entity) (nm : NameOfWorkcell) :
    Workcell × List LogEntry :=
  let acc0 : Workcell × List LogEntry := ({ Workcell.empty with name := nm }, [])
  let acc1 := w₁.entities.foldl (processModel w₁ fuel root) acc0
  let acc2 := w₁.entities.foldl (processAnchor w₁ fuel root) acc1
  let acc3 := w₁.entities.foldl (processInertial w₁ fuel root) acc2
  w₁.entities.foldl (processJoint w₁ fuel root) acc3

/-- Function `generate_workcell`: assign site IDs, validate the root, then run the four
projection passes over the entity set. -/
def generate_workcell (w : World) (fuel : Nat) (root : Entity) : GenResult :=
  let w₁ := assign_site_ids w fuel root
  match w₁.nameOfWorkcell root with
  | none => ⟨w₁, [], Except.error (WorkcellGenerationError.invalidWorkcellEntity root)⟩
  | some name =>
    let acc := projectionPasses w₁ fuel root name
    ⟨w₁, acc.2, Except.ok acc.1⟩

/-- The site-ID writes change no other component table of the world. -/
theorem foldl_setSiteID_eq (l : List (Nat × Entity)) (w : World) :
    l.foldl (fun acc p => setSiteID acc p.2 p.1) w =
      { w with siteID := (l.foldl (fun acc p => setSiteID acc p.2 p.1) w).siteID } := by
  induction l generalizing w with
  | nil => rfl
  | cons a t ih =>
    simp only [List.foldl_cons]
    rw [ih (setSiteID w a.2 a.1)]
    rfl

/-- Function `assign_site_ids` changes only the `SiteID` table. -/
theorem assign_site_ids_eq (w : World) (fuel : Nat) (root : Entity) :
    assign_site_ids w fuel root =
      { w with siteID := (assign_site_ids w fuel root).siteID } := by
  rw [assign_site_ids, foldl_setSiteID_eq]

/-- Function `assign_site_ids` keeps the entity list. -/
theorem assign_site_ids_entities (w : World) (fuel : Nat) (root : Entity) :
    (assign_site_ids w fuel root).entities = w.entities := by
  rw [assign_site_ids_eq]

/-- Function `assign_site_ids` keeps the `NameOfWorkcell` table. -/
theorem assign_site_ids_nameOfWorkcell (w : World) (fuel : Nat) (root : Entity) :
    (assign_site_ids w fuel root).nameOfWorkcell = w.nameOfWorkcell := by
  rw [assign_site_ids_eq]

/-- Function `assign_site_ids` keeps the `Parent` table. -/
theorem assign_site_ids_parent (w : World) (fuel : Nat) (root : Entity) :
    (assign_site_ids w fuel root).parent = w.parent := by
  rw [assign_site_ids_eq]

/-- C2: for a root without the `NameOfWorkcell` component, `generate_workcell` returns
the `InvalidWorkcellEntity` error carrying only the offending entity, and no document. -/
theorem C2_generate_workcell_invalid_root (w : World) (fuel : Nat) (root : Entity)
    (h : w.nameOfWorkcell root = none) :
    (generate_workcell w fuel root).result =
      Except.error (WorkcellGenerationError.invalidWorkcellEntity root) := by
  have h₁ : (assign_site_ids w fuel root).nameOfWorkcell root = none := by
    rw [assign_site_ids_nameOfWorkcell]
    exact h
  simp [generate_workcell, h₁]

/-- A concrete world whose root 0 lacks the workcell name. -/
def noNameWorld : World :=
  { sampleWorld with nameOfWorkcell := fun _ => none }

/-- C2 witness: the invalid-root theorem applied to the concrete nameless world. -/
theorem C2_generate_workcell_invalid_root_witness :
    noNameWorld.nameOfWorkcell 0 = none ∧
    (generate_workcell noNameWorld 5 0).result =
      Except.error (WorkcellGenerationError.invalidWorkcellEntity 0) :=
  ⟨rfl, C2_generate_workcell_invalid_root noNameWorld 5 0 rfl⟩

/-- Membership in the numbered list guarantees a site ID after the enumerated writes. -/
theorem foldl_setSiteID_isSome_of_mem (l : List Entity) (n : Nat) (w : World) (e : Entity)
    (he : e ∈ l) :
    (((l.enumFrom n).foldl (fun acc p => setSiteID acc p.2 p.1) w).siteID e).isSome
      = true := by
  induction l generalizing n w with
  | nil => cases he
  | cons a t ih =>
    simp only [List.enumFrom, List.foldl_cons]
    rcases List.mem_cons.mp he with h | h
    · subst h
      by_cases hm : e ∈ t
      · exact ih (n + 1) _ hm
      · apply foldl_setSiteID_isSome
        simp [setSiteID]
    · exact ih (n + 1) _ h

/-- Every entity of `new_entities` ends up with a site ID. -/
theorem assign_site_ids_isSome_of_mem (w : World) (fuel : Nat) (root : Entity)
    (e : Entity) (he : e ∈ newEntities w fuel root) :
    ((assign_site_ids w fuel root).siteID e).isSome = true := by
  have h0 : (newEntities w fuel root).enum = (newEntities w fuel root).enumFrom 0 := rfl
  rw [assign_site_ids, h0]
  exact foldl_setSiteID_isSome_of_mem _ 0 w e he

/-- C10: `generate_workcell` runs `assign_site_ids` before validating the root, so on
an invalid root it still returns the mutated world, with site IDs inserted for the
root and every qualifying descendant, alongside the error. -/
theorem C10_generate_workcell_mutates_before_error (w : World) (fuel : Nat)
    (root : Entity) (h : w.nameOfWorkcell root = none) :
    (generate_workcell w fuel root).world = assign_site_ids w fuel root ∧
    (generate_workcell w fuel root).result =
      Except.error (WorkcellGenerationError.invalidWorkcellEntity root) ∧
    ((assign_site_ids w fuel root).siteID root).isSome = true ∧
    (∀ e ∈ usedDescendants w fuel root,
      ((assign_site_ids w fuel root).siteID e).isSome = true) := by
  have h₁ : (assign_site_ids w fuel root).nameOfWorkcell root = none := by
    rw [assign_site_ids_nameOfWorkcell]
    exact h
  refine ⟨?_, ?_, ?_, ?_⟩
  · simp [generate_workcell, h₁]
  · simp [generate_workcell, h₁]
  · exact assign_site_ids_isSome_of_mem w fuel root root
      (List.mem_cons_self root (usedDescendants w fuel root))
  · intro e he
    exact assign_site_ids_isSome_of_mem w fuel root e
      (List.mem_cons_of_mem root he)

/-- C10 witness: the mutation-before-error theorem applied to the nameless world. -/
theorem C10_generate_workcell_mutates_before_error_witness :
    noNameWorld.nameOfWorkcell 0 = none ∧
    ((generate_workcell noNameWorld 5 0).world = assign_site_ids noNameWorld 5 0 ∧
    (generate_workcell noNameWorld 5 0).result =
      Except.error (WorkcellGenerationError.invalidWorkcellEntity 0) ∧
    ((assign_site_ids noNameWorld 5 0).siteID 0).isSome = true ∧
    (∀ e ∈ usedDescendants noNameWorld 5 0,
      ((assign_site_ids noNameWorld 5 0).siteID e).isSome = true)) :=
  ⟨rfl, C10_generate_workcell_mutates_before_error noNameWorld 5 0 rfl⟩

/-- Looking up the key just inserted. -/
theorem btreeLookup_insert_self {V : Type} (m : BTreeMap V) (k : Nat) (v : V) :
    btreeLookup (btreeInsert m k v) k = some v := by
  induction m with
  | nil => simp [btreeInsert, btreeLookup]
  | cons a t ih =>
    obtain ⟨k₀, v₀⟩ := a
    by_cases hlt : k < k₀
    · simp [btreeInsert, btreeLookup, hlt]
    · by_cases heq : k = k₀
      · simp [btreeInsert, btreeLookup, hlt, heq]
      · simp [btreeInsert, btreeLookup, hlt, heq, ih]

/-- Inserting at a different key does not change a lookup. -/
theorem btreeLookup_insert_ne {V : Type} (m : BTreeMap V) (k k₀ : Nat) (v : V)
    (h : k ≠ k₀) :
    btreeLookup (btreeInsert m k₀ v) k = btreeLookup m k := by
  induction m with
  | nil => simp [btreeInsert, btreeLookup, h]
  | cons a t ih =>
    obtain ⟨k₁, v₁⟩ := a
    by_cases hlt : k₀ < k₁
    · simp [btreeInsert, btreeLookup, hlt, h]
    · by_cases heq : k₀ = k₁
      · subst heq
        simp [btreeInsert, btreeLookup, hlt, h]
      · by_cases hk : k = k₁
        · simp [btreeInsert, btreeLookup, hlt, heq, hk]
        · simp [btreeInsert, btreeLookup, hlt, heq, hk, ih]

section FoldWrite

variable {V : Type}
variable {step : Workcell × List LogEntry → Entity → Workcell × List LogEntry}
variable {get : Workcell → BTreeMap V}
variable {wr : Entity → Option (Nat × V)}

/-- The effect of `step` on the map selected by `get` is exactly the write computed by
`wr`. -/
def StepWrites (step : Workcell × List LogEntry → Entity → Workcell × List LogEntry)
    (get : Workcell → BTreeMap V) (wr : Entity → Option (Nat × V)) : Prop :=
  ∀ acc e, get (step acc e).1 =
    match wr e with
    | some kv => btreeInsert (get acc.1) kv.1 kv.2
    | none => get acc.1

/-- If no element of the fold writes key `k`, the lookup at `k` is untouched. -/
theorem foldl_lookup_of_no_write (hs : StepWrites step get wr) (es : List Entity)
    (acc : Workcell × List LogEntry) (k : Nat)
    (hw : ∀ e ∈ es, ∀ v, wr e ≠ some (k, v)) :
    btreeLookup (get (es.foldl step acc).1) k = btreeLookup (get acc.1) k := by
  induction es generalizing acc with
  | nil => rfl
  | cons a t ih =>
    simp only [List.foldl_cons]
    rw [ih _ (fun e he v => hw e (List.mem_cons_of_mem a he) v)]
    rw [hs acc a]
    cases hwa : wr a with
    | none => rfl
    | some kv =>
      obtain ⟨k₀, v₀⟩ := kv
      have hk : k ≠ k₀ := by
        intro hc
        exact hw a (List.mem_cons_self a t) v₀ (by rw [hwa, hc])
      simp only []
      exact btreeLookup_insert_ne _ k k₀ v₀ hk

/-- Once the lookup at `k` holds `v` and every later write to `k` writes `v`, the
lookup stays at `v`. -/
theorem foldl_lookup_stable (hs : StepWrites step get wr) (es : List Entity)
    (acc : Workcell × List LogEntry) (k : Nat) (v : V)
    (hl : btreeLookup (get acc.1) k = some v)
    (hw : ∀ e ∈ es, ∀ v₀, wr e = some (k, v₀) → v₀ = v) :
    btreeLookup (get (es.foldl step acc).1) k = some v := by
  induction es generalizing acc with
  | nil => exact hl
  | cons a t ih
  =>
    simp only [List.foldl_cons]
    apply ih
    · rw [hs acc a]
      cases hwa : wr a with
      | none => exact hl
      | some kv =>
        obtain ⟨k₀, v₀⟩ := kv
        by_cases hk : k = k₀
        · subst hk
          have : v₀ = v := hw a (List.mem_cons_self a t) v₀ hwa
          subst this
          exact btreeLookup_insert_self _ k v₀
        · rw [btreeLookup_insert_ne _ k k₀ v₀ hk]
          exact hl
    · exact fun e he v₀ => hw e (List.mem_cons_of_mem a he) v₀

/-- If `e` in the fold writes `(k, v)` and every write to `k` writes `v`, the final
lookup at `k` is `v`. -/
theorem foldl_lookup_of_write (hs : StepWrites step get wr) (es : List Entity)
    (acc : Workcell × List LogEntry) (k : Nat) (v : V) (e : Entity) (he : e ∈ es)
    (hwe : wr e = some (k, v))
    (hw : ∀ e₀ ∈ es, ∀ v₀, wr e₀ = some (k, v₀) → v₀ = v) :
    btreeLookup (get (es.foldl step acc).1) k = some v := by
  induction es generalizing acc with
  | nil => cases he
  | cons a t ih =>
    simp only [List.foldl_cons]
    cases hwa : wr a with
    | some kv =>
      obtain ⟨k₀, v₀⟩ := kv
      by_cases hk : k₀ = k
      · subst hk
        have hv : v₀ = v := hw a (List.mem_cons_self a t) v₀ hwa
        subst hv
        apply foldl_lookup_stable hs t _ k₀ v₀
        · rw [hs acc a, hwa]
          exact btreeLookup_insert_self _ k₀ v₀
        · exact fun e₀ he₀ v₁ => hw e₀ (List.mem_cons_of_mem a he₀) v₁
      · rcases List.mem_cons.mp he with hea | het
        · subst hea
          rw [hwe] at hwa
          injection hwa with hpair
          exact absurd (congrArg Prod.fst hpair).symm hk
        · exact ih _ het (fun e₀ he₀ v₁ => hw e₀ (List.mem_cons_of_mem a he₀) v₁)
    | none =>
      rcases List.mem_cons.mp he with hea | het
      · rw [hea] at hwe
        rw [hwe] at hwa
        cases hwa
      · exact ih _ het (fun e₀ he₀ v₁ => hw e₀ (List.mem_cons_of_mem a he₀) v₁)

end FoldWrite

section LogFold

variable {step : Workcell × List LogEntry → Entity → Workcell × List LogEntry}

/-- The step only appends to the log. -/
def LogMono (step : Workcell × List LogEntry → Entity → Workcell × List LogEntry) :
    Prop :=
  ∀ acc e, ∃ t, (step acc e).2 = acc.2 ++ t

/-- A fold of an append-only step keeps every existing log line. -/
theorem foldl_log_mem (hs : LogMono step) (es : List Entity)
    (acc : Workcell × List LogEntry) (x : LogEntry) (hx : x ∈ acc.2) :
    x ∈ (es.foldl step acc).2 := by
  induction es generalizing acc with
  | nil => exact hx
  | cons a t ih =>
    simp only [List.foldl_cons]
    apply ih
    obtain ⟨s, hsa⟩ := hs acc a
    rw [hsa]
    exact List.mem_append_left s hx

/-- If some element of the fold always logs `x`, `x` is in the final log. -/
theorem foldl_log_mem_of_step (hs : LogMono step) (es : List Entity)
    (acc : Workcell × List LogEntry) (x : LogEntry) (e : Entity) (he : e ∈ es)
    (hstep : ∀ acc₀, x ∈ (step acc₀ e).2) :
    x ∈ (es.foldl step acc).2 := by
  induction es generalizing acc with
  | nil => cases he
  | cons a t ih =>
    simp only [List.foldl_cons]
    rcases List.mem_cons.mp he with hea | het
    · subst hea
      exact foldl_log_mem hs t _ x (hstep acc)
    · exact ih _ het

end LogFold

/-- A models-query row carries the own site ID and parent of the entity. -/
theorem modelsQuery_ids (w : World) (e : Entity)
    {name : NameInWorkcell} {source : Option AssetSource}
    {primitive : Option PrimitiveShape} {pose : Pose} {id : Nat} {parentEnt : Entity}
    {scale : Option Scale}
    (h : modelsQuery w e = some (name, source, primitive, pose, id, parentEnt, scale)) :
    w.siteID e = some id ∧ w.parent e = some parentEnt := by
  unfold modelsQuery at h
  cases hn : w.nameInWorkcell e <;> cases hpo : w.pose e <;> cases hsi : w.siteID e <;>
    cases hpa : w.parent e <;> simp only [hn, hpo, hsi, hpa] at h <;>
    try exact Option.noConfusion h
  split at h
  · injection h with h₀
    simp only [Prod.mk.injEq] at h₀
    obtain ⟨h1, h2, h3, h4, h5, h6, h7⟩ := h₀
    subst h5
    subst h6
    exact ⟨rfl, rfl⟩
  · exact Option.noConfusion h

/-- An anchors-query row carries the own site ID and parent of the entity. -/
theorem anchorsQuery_ids (w : World) (e : Entity)
    {a : Anchor} {name : NameInWorkcell} {id : Nat} {parentEnt : Entity}
    (h : anchorsQuery w e = some (a, name, id, parentEnt)) :
    w.siteID e = some id ∧ w.parent e = some parentEnt := by
  unfold anchorsQuery at h
  cases ha : w.anchor e <;> cases hn : w.nameInWorkcell e <;> cases hsi : w.siteID e <;>
    cases hpa : w.parent e <;> simp only [ha, hn, hsi, hpa] at h <;>
    try exact Option.noConfusion h
  split at h
  · exact Option.noConfusion h
  · injection h with h₀
    simp only [Prod.mk.injEq] at h₀
    obtain ⟨h1, h2, h3, h4⟩ := h₀
    subst h3
    subst h4
    exact ⟨rfl, rfl⟩

/-- An inertials-query row carries the own site ID and parent of the entity. -/
theorem inertialsQuery_ids (w : World) (e : Entity)
    {pose : Pose} {mass : Mass} {moment : Moment} {id : Nat} {parentEnt : Entity}
    (h : inertialsQuery w e = some (pose, mass, moment, id, parentEnt)) :
    w.siteID e = some id ∧ w.parent e = some parentEnt := by
  unfold inertialsQuery at h
  cases hpo : w.pose e <;> cases hm : w.mass e <;> cases hmo : w.moment e <;>
    cases hsi : w.siteID e <;> cases hpa : w.parent e <;>
    simp only [hpo, hm, hmo, hsi, hpa] at h <;>
    try exact Option.noConfusion h
  split at h
  · exact Option.noConfusion h
  · injection h with h₀
    simp only [Prod.mk.injEq] at h₀
    obtain ⟨h1, h2, h3, h4, h5⟩ := h₀
    subst h4
    subst h5
    exact ⟨rfl, rfl⟩

/-- A joints-query row carries the own site ID and parent of the entity. -/
theorem jointsQuery_ids (w : World) (e : Entity)
    {props : JointProperties} {name : NameInWorkcell} {id : Nat} {parentEnt : Entity}
    (h : jointsQuery w e = some (props, name, id, parentEnt)) :
    w.siteID e = some id ∧ w.parent e = some parentEnt := by
  unfold jointsQuery at h
  cases hj : w.jointProperties e <;> cases hn : w.nameInWorkcell e <;>
    cases hsi : w.siteID e <;> cases hpa : w.parent e <;>
    simp only [hj, hn, hsi, hpa] at h <;>
    try exact Option.noConfusion h
  split at h
  · exact Option.noConfusion h
  · injection h with h₀
    simp only [Prod.mk.injEq] at h₀
    obtain ⟨h1, h2, h3, h4⟩ := h₀
    subst h3
    subst h4
    exact ⟨rfl, rfl⟩

/-- The write the visuals/collisions loop performs on the `visuals` map for `e`,
factored out of `processModel` for the fold lemmas. -/
def visualWrite (w : World) (fuel : Nat) (root : Entity) (e : Entity) :
    Option (Nat × Parented WorkcellModel) :=
  match modelsQuery w e with
  | none => none
  | some (name, source, primitive, pose, id, parentEnt, scale) =>
    if parent_in_workcell w fuel e root then
      match w.siteID parentEnt with
      | none => none
      | some parentID =>
        match source with
        | some src =>
          if w.visualMeshMarker e then
            some (id, ⟨parentID, ⟨name, Geometry.mesh src scale, pose⟩⟩)
          else none
        | none =>
          match primitive with
          | some prim =>
            if w.visualMeshMarker e then
              some (id, ⟨parentID, ⟨name, Geometry.primitive prim, pose⟩⟩)
            else none
          | none => none
    else none

/-- The write the visuals/collisions loop performs on the `collisions` map for `e`. -/
def collisionWrite (w : World) (fuel : Nat) (root : Entity) (e : Entity) :
    Option (Nat × Parented WorkcellModel) :=
  match modelsQuery w e with
  | none => none
  | some (name, source, primitive, pose, id, parentEnt, scale) =>
    if parent_in_workcell w fuel e root then
      match w.siteID parentEnt with
      | none => none
      | some parentID =>
        match source with
        | some src =>
          if w.visualMeshMarker e then none
          else if w.collisionMeshMarker e then
            some (id, ⟨parentID, ⟨name, Geometry.mesh src scale, pose⟩⟩)
          else none
        | none =>
          match primitive with
          | some prim =>
            if w.visualMeshMarker e then none
            else if w.collisionMeshMarker e then
              some (id, ⟨parentID, ⟨name, Geometry.primitive prim, pose⟩⟩)
            else none
          | none => none
    else none

/-- The write the anchors loop performs on the `frames` map for `e`. -/
def anchorWrite (w : World) (fuel : Nat) (root : Entity) (e : Entity) :
    Option (Nat × Parented Frame) :=
  match anchorsQuery w e with
  | none => none
  | some (a, name, id, parentEnt) =>
    if parent_in_workcell w fuel e root then
      match w.siteID parentEnt with
      | none => none
      | some parentID => some (id, ⟨parentID, ⟨a, name⟩⟩)
    else none

/-- The write the inertials loop performs on the `inertias` map for `e`. -/
def inertialWrite (w : World) (fuel : Nat) (root : Entity) (e : Entity) :
    Option (Nat × Parented Inertia) :=
  match inertialsQuery w e with
  | none => none
  | some (pose, mass, moment, id, parentEnt) =>
    if parent_in_workcell w fuel e root then
      match w.siteID parentEnt with
      | none => none
      | some parentID => some (id, ⟨parentID, ⟨pose, mass, moment⟩⟩)
    else none

/-- The write the joints loop performs on the `joints` map for `e`. -/
def jointWrite (w : World) (fuel : Nat) (root : Entity) (e : Entity) :
    Option (Nat × Parented Joint) :=
  match jointsQuery w e with
  | none => none
  | some (props, name, id, parentEnt) =>
    if parent_in_workcell w fuel e root then
      match w.siteID parentEnt with
      | none => none
      | some parentID => some (id, ⟨parentID, ⟨name, props⟩⟩)
    else none

/-- A step that never changes the selected map trivially satisfies `StepWrites` with
the empty write. -/
theorem stepWrites_of_keeps {V : Type}
    {step : Workcell × List LogEntry → Entity → Workcell × List LogEntry}
    {get : Workcell → BTreeMap V}
    (h : ∀ acc e, get (step acc e).1 = get acc.1) :
    StepWrites step get (fun _ => none) :=
  fun acc e => h acc e

/-- The visuals/collisions loop never touches the frames map. -/
theorem processModel_keeps_frames (w : World) (fuel : Nat) (root : Entity) :
    ∀ acc e, ((processModel w fuel root acc e).1).frames = (acc.1).frames := by
  intro acc e
  unfold processModel
  repeat' split
  all_goals rfl

/-- The visuals/collisions loop never touches the inertias map. -/
theorem processModel_keeps_inertias (w : World) (fuel : Nat) (root : Entity) :
    ∀ acc e, ((processModel w fuel root acc e).1).inertias = (acc.1).inertias := by
  intro acc e
  unfold processModel
  repeat' split
  all_goals rfl

/-- The visuals/collisions loop never touches the joints map. -/
theorem processModel_keeps_joints (w : World) (fuel : Nat) (root : Entity) :
    ∀ acc e, ((processModel w fuel root acc e).1).joints = (acc.1).joints := by
  intro acc e
  unfold processModel
  repeat' split
  all_goals rfl

/-- The anchors loop never touches the visuals map. -/
theorem processAnchor_keeps_visuals (w : World) (fuel : Nat) (root : Entity) :
    ∀ acc e, ((processAnchor w fuel root acc e).1).visuals = (acc.1).visuals := by
  intro acc e
  unfold processAnchor
  repeat' split
  all_goals rfl

/-- The anchors loop never touches the collisions map. -/
theorem processAnchor_keeps_collisions (w : World) (fuel : Nat) (root : Entity) :
    ∀ acc e, ((processAnchor w fuel root acc e).1).collisions = (acc.1).collisions := by
  intro acc e
  unfold processAnchor
  repeat' split
  all_goals rfl

/-- The anchors loop never touches the inertias map. -/
theorem processAnchor_keeps_inertias (w : World) (fuel : Nat) (root : Entity) :
    ∀ acc e, ((processAnchor w fuel root acc e).1).inertias = (acc.1).inertias := by
  intro acc e
  unfold processAnchor
  repeat' split
  all_goals rfl

/-- The anchors loop never touches the joints map. -/
theorem processAnchor_keeps_joints (w : World) (fuel : Nat) (root : Entity) :
    ∀ acc e, ((processAnchor w fuel root acc e).1).joints = (acc.1).joints := by
  intro acc e
  unfold processAnchor
  repeat' split
  all_goals rfl

/-- The inertials loop never touches the visuals map. -/
theorem processInertial_keeps_visuals (w : World) (fuel : Nat) (root : Entity) :
    ∀ acc e, ((processInertial w fuel root acc e).1).visuals = (acc.1).visuals := by
  intro acc e
  unfold processInertial
  repeat' split
  all_goals rfl

/-- The inertials loop never touches the collisions map. -/
theorem processInertial_keeps_collisions (w : World) (fuel : Nat) (root : Entity) :
    ∀ acc e, ((processInertial w fuel root acc e).1).collisions = (acc.1).collisions := by
  intro acc e
  unfold processInertial
  repeat' split
  all_goals rfl

/-- The inertials loop never touches the frames map. -/
theorem processInertial_keeps_frames (w : World) (fuel : Nat) (root : Entity) :
    ∀ acc e, ((processInertial w fuel root acc e).1).frames = (acc.1).frames := by
  intro acc e
  unfold processInertial
  repeat' split
  all_goals rfl

/-- The inertials loop never touches the joints map. -/
theorem processInertial_keeps_joints (w : World) (fuel : Nat) (root : Entity) :
    ∀ acc e, ((processInertial w fuel root acc e).1).joints = (acc.1).joints := by
  intro acc e
  unfold processInertial
  repeat' split
  all_goals rfl

/-- The joints loop never touches the visuals map. -/
theorem processJoint_keeps_visuals (w : World) (fuel : Nat) (root : Entity) :
    ∀ acc e, ((processJoint w fuel root acc e).1).visuals = (acc.1).visuals := by
  intro acc e
  unfold processJoint
  repeat' split
  all_goals rfl

/-- The joints loop never touches the collisions map. -/
theorem processJoint_keeps_collisions (w : World) (fuel : Nat) (root : Entity) :
    ∀ acc e, ((processJoint w fuel root acc e).1).collisions = (acc.1).collisions := by
  intro acc e
  unfold processJoint
  repeat' split
  all_goals rfl

/-- The joints loop never touches the frames map. -/
theorem processJoint_keeps_frames (w : World) (fuel : Nat) (root : Entity) :
    ∀ acc e, ((processJoint w fuel root acc e).1).frames = (acc.1).frames := by
  intro acc e
  unfold processJoint
  repeat' split
  all_goals rfl

/-- The joints loop never touches the inertias map. -/
theorem processJoint_keeps_inertias (w : World) (fuel : Nat) (root : Entity) :
    ∀ acc e, ((processJoint w fuel root acc e).1).inertias = (acc.1).inertias := by
  intro acc e
  unfold processJoint
  repeat' split
  all_goals rfl

/-- The visuals/collisions loop acts on the visuals map exactly as `visualWrite`. -/
theorem processModel_writes_visuals (w : World) (fuel : Nat) (root : Entity) :
    StepWrites (processModel w fuel root) Workcell.visuals (visualWrite w fuel root) := by
  intro acc e
  unfold processModel visualWrite
  repeat' split
  all_goals first
    | rfl
    | (rename_i h₀; cases h₀; rfl)
    | simp_all

/-- The visuals/collisions loop acts on the collisions map exactly as
`collisionWrite`. -/
theorem processModel_writes_collisions (w : World) (fuel : Nat) (root : Entity) :
    StepWrites (processModel w fuel root) Workcell.collisions
      (collisionWrite w fuel root) := by
  intro acc e
  unfold processModel collisionWrite
  repeat' split
  all_goals first
    | rfl
    | (rename_i h₀; cases h₀; rfl)
    | simp_all

/-- The anchors loop acts on the frames map exactly as `anchorWrite`. -/
theorem processAnchor_writes_frames (w : World) (fuel : Nat) (root : Entity) :
    StepWrites (processAnchor w fuel root) Workcell.frames (anchorWrite w fuel root) := by
  intro acc e
  unfold processAnchor anchorWrite
  repeat' split
  all_goals first
    | rfl
    | (rename_i h₀; cases h₀; rfl)
    | simp_all

/-- The inertials loop acts on the inertias map exactly as `inertialWrite`. -/
theorem processInertial_writes_inertias (w : World) (fuel : Nat) (root : Entity) :
    StepWrites (processInertial w fuel root) Workcell.inertias
      (inertialWrite w fuel root) := by
  intro acc e
  unfold processInertial inertialWrite
  repeat' split
  all_goals first
    | rfl
    | (rename_i h₀; cases h₀; rfl)
    | simp_all

/-- The joints loop acts on the joints map exactly as `jointWrite`. -/
theorem processJoint_writes_joints (w : World) (fuel : Nat) (root : Entity) :
    StepWrites (processJoint w fuel root) Workcell.joints (jointWrite w fuel root) := by
  intro acc e
  unfold processJoint jointWrite
  repeat' split
  all_goals first
    | rfl
    | (rename_i h₀; cases h₀; rfl)
    | simp_all

/-- The visuals/collisions loop only appends to the log. -/
theorem processModel_logMono (w : World) (fuel : Nat) (root : Entity) :
    LogMono (processModel w fuel root) := by
  intro acc e
  unfold processModel
  repeat' split
  all_goals first
    | exact ⟨_, rfl⟩
    | exact ⟨[], by simp⟩

/-- The anchors loop only appends to the log. -/
theorem processAnchor_logMono (w : World) (fuel : Nat) (root : Entity) :
    LogMono (processAnchor w fuel root) := by
  intro acc e
  unfold processAnchor
  repeat' split
  all_goals first
    | exact ⟨_, rfl⟩
    | exact ⟨[], by simp⟩

/-- The inertials loop only appends to the log. -/
theorem processInertial_logMono (w : World) (fuel : Nat) (root : Entity) :
    LogMono (processInertial w fuel root) := by
  intro acc e
  unfold processInertial
  repeat' split
  all_goals first
    | exact ⟨_, rfl⟩
    | exact ⟨[], by simp⟩

/-- The joints loop only appends to the log. -/
theorem processJoint_logMono (w : World) (fuel : Nat) (root : Entity) :
    LogMono (processJoint w fuel root) := by
  intro acc e
  unfold processJoint
  repeat' split
  all_goals first
    | exact ⟨_, rfl⟩
    | exact ⟨[], by simp⟩

/-- A visuals-map write is keyed by the own site ID of the written entity. -/
theorem visualWrite_key (w : World) (fuel : Nat) (root : Entity) (e : Entity)
    {k : Nat} {v : Parented WorkcellModel}
    (h : visualWrite w fuel root e = some (k, v)) :
    w.siteID e = some k := by
  unfold visualWrite at h
  repeat' split at h
  all_goals first
    | exact Option.noConfusion h
    | (injection h with h₁
       simp only [Prod.mk.injEq] at h₁
       rw [(modelsQuery_ids w e (by assumption)).1, h₁.1])

/-- A collisions-map write is keyed by the own site ID of the written entity. -/
theorem collisionWrite_key (w : World) (fuel : Nat) (root : Entity) (e : Entity)
    {k : Nat} {v : Parented WorkcellModel}
    (h : collisionWrite w fuel root e = some (k, v)) :
    w.siteID e = some k := by
  unfold collisionWrite at h
  repeat' split at h
  all_goals first
    | exact Option.noConfusion h
    | (injection h with h₁
       simp only [Prod.mk.injEq] at h₁
       rw [(modelsQuery_ids w e (by assumption)).1, h₁.1])

/-- A frames-map write is keyed by the own site ID of the written entity. -/
theorem anchorWrite_key (w : World) (fuel : Nat) (root : Entity) (e : Entity)
    {k : Nat} {v : Parented Frame}
    (h : anchorWrite w fuel root e = some (k, v)) :
    w.siteID e = some k := by
  unfold anchorWrite at h
  repeat' split at h
  all_goals first
    | exact Option.noConfusion h
    | (injection h with h₁
       simp only [Prod.mk.injEq] at h₁
       rw [(anchorsQuery_ids w e (by assumption)).1, h₁.1])

/-- An inertias-map write is keyed by the own site ID of the written entity. -/
theorem inertialWrite_key (w : World) (fuel : Nat) (root : Entity) (e : Entity)
    {k : Nat} {v : Parented Inertia}
    (h : inertialWrite w fuel root e = some (k, v)) :
    w.siteID e = some k := by
  unfold inertialWrite at h
  repeat' split at h
  all_goals first
    | exact Option.noConfusion h
    | (injection h with h₁
       simp only [Prod.mk.injEq] at h₁
       rw [(inertialsQuery_ids w e (by assumption)).1, h₁.1])

/-- A joints-map write is keyed by the own site ID of the written entity. -/
theorem jointWrite_key (w : World) (fuel : Nat) (root : Entity) (e : Entity)
    {k : Nat} {v : Parented Joint}
    (h : jointWrite w fuel root e = some (k, v)) :
    w.siteID e = some k := by
  unfold jointWrite at h
  repeat' split at h
  all_goals first
    | exact Option.noConfusion h
    | (injection h with h₁
       simp only [Prod.mk.injEq] at h₁
       rw [(jointsQuery_ids w e (by assumption)).1, h₁.1])

/-- With an unassigned parent, the visuals/collisions loop writes nothing to the
visuals map for `e`. -/
theorem visualWrite_none_of_missing_parent (w : World) (fuel : Nat) (root : Entity)
    (e p : Entity) (hp : w.parent e = some p) (hpid : w.siteID p = none) :
    visualWrite w fuel root e = none := by
  unfold visualWrite
  cases hq : modelsQuery w e with
  | none => rfl
  | some row =>
    obtain ⟨name, source, primitive, pose, id, parentEnt, scale⟩ := row
    have hpe : parentEnt = p := by
      have h₂ := (modelsQuery_ids w e hq).2
      rw [hp] at h₂
      exact (Option.some.inj h₂).symm
    dsimp only
    by_cases hin : parent_in_workcell w fuel e root = true
    · rw [if_pos hin, hpe]
      rw [hpid]
    · rw [if_neg hin]

/-- With an unassigned parent, the visuals/collisions loop writes nothing to the
collisions map for `e`. -/
theorem collisionWrite_none_of_missing_parent (w : World) (fuel : Nat) (root : Entity)
    (e p : Entity) (hp : w.parent e = some p) (hpid : w.siteID p = none) :
    collisionWrite w fuel root e = none := by
  unfold collisionWrite
  cases hq : modelsQuery w e with
  | none => rfl
  | some row =>
    obtain ⟨name, source, primitive, pose, id, parentEnt, scale⟩ := row
    have hpe : parentEnt = p := by
      have h₂ := (modelsQuery_ids w e hq).2
      rw [hp] at h₂
      exact (Option.some.inj h₂).symm
    dsimp only
    by_cases hin : parent_in_workcell w fuel e root = true
    · rw [if_pos hin, hpe]
      rw [hpid]
    · rw [if_neg hin]

/-- With an unassigned parent, the anchors loop writes nothing for `e`. -/
theorem anchorWrite_none_of_missing_parent (w : World) (fuel : Nat) (root : Entity)
    (e p : Entity) (hp : w.parent e = some p) (hpid : w.siteID p = none) :
    anchorWrite w fuel root e = none := by
  unfold anchorWrite
  cases hq : anchorsQuery w e with
  | none => rfl
  | some row =>
    obtain ⟨a, name, id, parentEnt⟩ := row
    have hpe : parentEnt = p := by
      have h₂ := (anchorsQuery_ids w e hq).2
      rw [hp] at h₂
      exact (Option.some.inj h₂).symm
    dsimp only
    by_cases hin : parent_in_workcell w fuel e root = true
    · rw [if_pos hin, hpe]
      rw [hpid]
    · rw [if_neg hin]

/-- With an unassigned parent, the inertials loop writes nothing for `e`. -/
theorem inertialWrite_none_of_missing_parent (w : World) (fuel : Nat) (root : Entity)
    (e p : Entity) (hp : w.parent e = some p) (hpid : w.siteID p = none) :
    inertialWrite w fuel root e = none := by
  unfold inertialWrite
  cases hq : inertialsQuery w e with
  | none => rfl
  | some row =>
    obtain ⟨pose, mass, moment, id, parentEnt⟩ := row
    have hpe : parentEnt = p := by
      have h₂ := (inertialsQuery_ids w e hq).2
      rw [hp] at h₂
      exact (Option.some.inj h₂).symm
    dsimp only
    by_cases hin : parent_in_workcell w fuel e root = true
    · rw [if_pos hin, hpe]
      rw [hpid]
    · rw [if_neg hin]

/-- With an unassigned parent, the joints loop writes nothing for `e`. -/
theorem jointWrite_none_of_missing_parent (w : World) (fuel : Nat) (root : Entity)
    (e p : Entity) (hp : w.parent e = some p) (hpid : w.siteID p = none) :
    jointWrite w fuel root e = none := by
  unfold jointWrite
  cases hq : jointsQuery w e with
  | none => rfl
  | some row =>
    obtain ⟨props, name, id, parentEnt⟩ := row
    have hpe : parentEnt = p := by
      have h₂ := (jointsQuery_ids w e hq).2
      rw [hp] at h₂
      exact (Option.some.inj h₂).symm
    dsimp only
    by_cases hin : parent_in_workcell w fuel e root = true
    · rw [if_pos hin, hpe]
      rw [hpid]
    · rw [if_neg hin]

/-- When `e` matches the models query inside the workcell but its parent has no site
ID, the visuals/collisions loop logs the parent-not-found error. -/
theorem processModel_logs_missing_parent (w : World) (fuel : Nat) (root e p : Entity)
    {name : NameInWorkcell} {source : Option AssetSource}
    {primitive : Option PrimitiveShape} {pose : Pose} {id : Nat} {parentEnt : Entity}
    {scale : Option Scale}
    (hq : modelsQuery w e = some (name, source, primitive, pose, id, parentEnt, scale))
    (hin : parent_in_workcell w fuel e root = true)
    (hp : w.parent e = some p) (hpid : w.siteID p = none)
    (acc : Workcell × List LogEntry) :
    LogEntry.parentNotFound PassKind.visual p ∈ (processModel w fuel root acc e).2 := by
  have hpe : parentEnt = p := by
    have h₂ := (modelsQuery_ids w e hq).2
    rw [hp] at h₂
    exact (Option.some.inj h₂).symm
  unfold processModel
  rw [hq]
  dsimp only
  rw [if_pos hin, hpe, hpid]
  dsimp only
  simp

/-- When `e` matches the anchors query inside the workcell but its parent has no site
ID, the anchors loop logs the parent-not-found error. -/
theorem processAnchor_logs_missing_parent (w : World) (fuel : Nat) (root e p : Entity)
    {a : Anchor} {name : NameInWorkcell} {id : Nat} {parentEnt : Entity}
    (hq : anchorsQuery w e = some (a, name, id, parentEnt))
    (hin : parent_in_workcell w fuel e root = true)
    (hp : w.parent e = some p) (hpid : w.siteID p = none)
    (acc : Workcell × List LogEntry) :
    LogEntry.parentNotFound PassKind.anchor p ∈ (processAnchor w fuel root acc e).2 := by
  have hpe : parentEnt = p := by
    have h₂ := (anchorsQuery_ids w e hq).2
    rw [hp] at h₂
    exact (Option.some.inj h₂).symm
  unfold processAnchor
  rw [hq]
  dsimp only
  rw [if_pos hin, hpe, hpid]
  dsimp only
  simp

/-- When `e` matches the inertials query inside the workcell but its parent has no
site ID, the inertials loop logs the parent-not-found error. -/
theorem processInertial_logs_missing_parent (w : World) (fuel : Nat) (root e p : Entity)
    {pose : Pose} {mass : Mass} {moment : Moment} {id : Nat} {parentEnt : Entity}
    (hq : inertialsQuery w e = some (pose, mass, moment, id, parentEnt))
    (hin : parent_in_workcell w fuel e root = true)
    (hp : w.parent e = some p) (hpid : w.siteID p = none)
    (acc : Workcell × List LogEntry) :
    LogEntry.parentNotFound PassKind.inertial p
      ∈ (processInertial w fuel root acc e).2 := by
  have hpe : parentEnt = p := by
    have h₂ := (inertialsQuery_ids w e hq).2
    rw [hp] at h₂
    exact (Option.some.inj h₂).symm
  unfold processInertial
  rw [hq]
  dsimp only
  rw [if_pos hin, hpe, hpid]
  dsimp only
  simp

/-- When `e` matches the joints query inside the workcell but its parent has no site
ID, the joints loop logs the parent-not-found error. -/
theorem processJoint_logs_missing_parent (w : World) (fuel : Nat) (root e p : Entity)
    {props : JointProperties} {name : NameInWorkcell} {id : Nat} {parentEnt : Entity}
    (hq : jointsQuery w e = some (props, name, id, parentEnt))
    (hin : parent_in_workcell w fuel e root = true)
    (hp : w.parent e = some p) (hpid : w.siteID p = none)
    (acc : Workcell × List LogEntry) :
    LogEntry.parentNotFound PassKind.joint p ∈ (processJoint w fuel root acc e).2 := by
  have hpe : parentEnt = p := by
    have h₂ := (jointsQuery_ids w e hq).2
    rw [hp] at h₂
    exact (Option.some.inj h₂).symm
  unfold processJoint
  rw [hq]
  dsimp only
  rw [if_pos hin, hpe, hpid]
  dsimp only
  simp

/-- If the anchors loop never writes key `k`, the frames map keeps its lookup at `k`
across all four passes. -/
theorem passes_frames_lookup (w₁ : World) (fuel : Nat) (root : Entity)
    (es : List Entity) (acc : Workcell × List LogEntry) (k : Nat)
    (ha : ∀ e ∈ es, ∀ v, anchorWrite w₁ fuel root e ≠ some (k, v)) :
    btreeLookup (((es.foldl (processJoint w₁ fuel root)
        (es.foldl (processInertial w₁ fuel root)
          (es.foldl (processAnchor w₁ fuel root)
            (es.foldl (processModel w₁ fuel root) acc)))).1).frames) k
      = btreeLookup ((acc.1).frames) k := by
  rw [foldl_lookup_of_no_write (stepWrites_of_keeps (processJoint_keeps_frames w₁ fuel root))
    es _ k (fun e he v hc => Option.noConfusion hc)]
  rw [foldl_lookup_of_no_write (stepWrites_of_keeps (processInertial_keeps_frames w₁ fuel root))
    es _ k (fun e he v hc => Option.noConfusion hc)]
  rw [foldl_lookup_of_no_write (processAnchor_writes_frames w₁ fuel root) es _ k ha]
  rw [foldl_lookup_of_no_write (stepWrites_of_keeps (processModel_keeps_frames w₁ fuel root))
    es _ k (fun e he v hc => Option.noConfusion hc)]

/-- If the inertials loop never writes key `k`, the inertias map keeps its lookup at
`k` across all four passes. -/
theorem passes_inertias_lookup (w₁ : World) (fuel : Nat) (root : Entity)
    (es : List Entity) (acc : Workcell × List LogEntry) (k : Nat)
    (hi : ∀ e ∈ es, ∀ v, inertialWrite w₁ fuel root e ≠ some (k, v)) :
    btreeLookup (((es.foldl (processJoint w₁ fuel root)
        (es.foldl (processInertial w₁ fuel root)
          (es.foldl (processAnchor w₁ fuel root)
            (es.foldl (processModel w₁ fuel root) acc)))).1).inertias) k
      = btreeLookup ((acc.1).inertias) k := by
  rw [foldl_lookup_of_no_write (stepWrites_of_keeps (processJoint_keeps_inertias w₁ fuel root))
    es _ k (fun e he v hc => Option.noConfusion hc)]
  rw [foldl_lookup_of_no_write (processInertial_writes_inertias w₁ fuel root) es _ k hi]
  rw [foldl_lookup_of_no_write (stepWrites_of_keeps (processAnchor_keeps_inertias w₁ fuel root))
    es _ k (fun e he v hc => Option.noConfusion hc)]
  rw [foldl_lookup_of_no_write (stepWrites_of_keeps (processModel_keeps_inertias w₁ fuel root))
    es _ k (fun e he v hc => Option.noConfusion hc)]

/-- If the joints loop never writes key `k`, the joints map keeps its lookup at `k`
across all four passes. -/
theorem passes_joints_lookup (w₁ : World) (fuel : Nat) (root : Entity)
    (es : List Entity) (acc : Workcell × List LogEntry) (k : Nat)
    (hj : ∀ e ∈ es, ∀ v, jointWrite w₁ fuel root e ≠ some (k, v)) :
    btreeLookup (((es.foldl (processJoint w₁ fuel root)
        (es.foldl (processInertial w₁ fuel root)
          (es.foldl (processAnchor w₁ fuel root)
            (es.foldl (processModel w₁ fuel root) acc)))).1).joints) k
      = btreeLookup ((acc.1).joints) k := by
  rw [foldl_lookup_of_no_write (processJoint_writes_joints w₁ fuel root) es _ k hj]
  rw [foldl_lookup_of_no_write (stepWrites_of_keeps (processInertial_keeps_joints w₁ fuel root))
    es _ k (fun e he v hc => Option.noConfusion hc)]
  rw [foldl_lookup_of_no_write (stepWrites_of_keeps (processAnchor_keeps_joints w₁ fuel root))
    es _ k (fun e he v hc => Option.noConfusion hc)]
  rw [foldl_lookup_of_no_write (stepWrites_of_keeps (processModel_keeps_joints w₁ fuel root))
    es _ k (fun e he v hc => Option.noConfusion hc)]

/-- If the visuals/collisions loop never writes key `k` to the visuals map, it keeps
its lookup at `k` across all four passes. -/
theorem passes_visuals_lookup (w₁ : World) (fuel : Nat) (root : Entity)
    (es : List Entity) (acc : Workcell × List LogEntry) (k : Nat)
    (hv : ∀ e ∈ es, ∀ v, visualWrite w₁ fuel root e ≠ some (k, v)) :
    btreeLookup (((es.foldl (processJoint w₁ fuel root)
        (es.foldl (processInertial w₁ fuel root)
          (es.foldl (processAnchor w₁ fuel root)
            (es.foldl (processModel w₁ fuel root) acc)))).1).visuals) k
      = btreeLookup ((acc.1).visuals) k := by
  rw [foldl_lookup_of_no_write (stepWrites_of_keeps (processJoint_keeps_visuals w₁ fuel root))
    es _ k (fun e he v hc => Option.noConfusion hc)]
  rw [foldl_lookup_of_no_write (stepWrites_of_keeps (processInertial_keeps_visuals w₁ fuel root))
    es _ k (fun e he v hc => Option.noConfusion hc)]
  rw [foldl_lookup_of_no_write (stepWrites_of_keeps (processAnchor_keeps_visuals w₁ fuel root))
    es _ k (fun e he v hc => Option.noConfusion hc)]
  rw [foldl_lookup_of_no_write (processModel_writes_visuals w₁ fuel root) es _ k hv]

/-- If the visuals/collisions loop never writes key `k` to the collisions map, it
keeps its lookup at `k` across all four passes. -/
theorem passes_collisions_lookup (w₁ : World) (fuel : Nat) (root : Entity)
    (es : List Entity) (acc : Workcell × List LogEntry) (k : Nat)
    (hc : ∀ e ∈ es, ∀ v, collisionWrite w₁ fuel root e ≠ some (k, v)) :
    btreeLookup (((es.foldl (processJoint w₁ fuel root)
        (es.foldl (processInertial w₁ fuel root)
          (es.foldl (processAnchor w₁ fuel root)
            (es.foldl (processModel w₁ fuel root) acc)))).1).collisions) k
      = btreeLookup ((acc.1).collisions) k := by
  rw [foldl_lookup_of_no_write (stepWrites_of_keeps (processJoint_keeps_collisions w₁ fuel root))
    es _ k (fun e he v hc₀ => Option.noConfusion hc₀)]
  rw [foldl_lookup_of_no_write (stepWrites_of_keeps (processInertial_keeps_collisions w₁ fuel root))
    es _ k (fun e he v hc₀ => Option.noConfusion hc₀)]
  rw [foldl_lookup_of_no_write (stepWrites_of_keeps (processAnchor_keeps_collisions w₁ fuel root))
    es _ k (fun e he v hc₀ => Option.noConfusion hc₀)]
  rw [foldl_lookup_of_no_write (processModel_writes_collisions w₁ fuel root) es _ k hc]

/-- C3: an entity considered by one of the projection passes whose immediate parent
has no assigned stable ID is excluded from every output map of the returned document,
a parent-not-found error is logged, and generation still succeeds. -/
theorem C3_generate_workcell_missing_parent_excluded
    (w : World) (fuel : Nat) (root e p : Entity) (k : Nat) (nm : NameOfWorkcell)
    (hn : w.nameOfWorkcell root = some nm)
    (hmem : e ∈ w.entities)
    (hp : (assign_site_ids w fuel root).parent e = some p)
    (hpid : (assign_site_ids w fuel root).siteID p = none)
    (hk : (assign_site_ids w fuel root).siteID e = some k)
    (hin : parent_in_workcell (assign_site_ids w fuel root) fuel e root = true)
    (hconsider :
      (modelsQuery (assign_site_ids w fuel root) e).isSome = true
      ∨ (anchorsQuery (assign_site_ids w fuel root) e).isSome = true
      ∨ (inertialsQuery (assign_site_ids w fuel root) e).isSome = true
      ∨ (jointsQuery (assign_site_ids w fuel root) e).isSome = true)
    (huniq : ∀ eo ∈ w.entities,
      (assign_site_ids w fuel root).siteID eo = some k → eo = e) :
    ∃ doc, (generate_workcell w fuel root).result = Except.ok doc ∧
      btreeLookup doc.frames k = none ∧
      btreeLookup doc.inertias k = none ∧
      btreeLookup doc.joints k = none ∧
      btreeLookup doc.visuals k = none ∧
      btreeLookup doc.collisions k = none ∧
      ∃ kind, LogEntry.parentNotFound kind p ∈ (generate_workcell w fuel root).log := by
  have hn₁ : (assign_site_ids w fuel root).nameOfWorkcell root = some nm := by
    rw [assign_site_ids_nameOfWorkcell]
    exact hn
  have hgen : generate_workcell w fuel root =
      ⟨assign_site_ids w fuel root,
        (projectionPasses (assign_site_ids w fuel root) fuel root nm).2,
        Except.ok (projectionPasses (assign_site_ids w fuel root) fuel root nm).1⟩ := by
    unfold generate_workcell
    dsimp only
    rw [hn₁]
  have hents : (assign_site_ids w fuel root).entities = w.entities :=
    assign_site_ids_entities w fuel root
  have hmem₁ : e ∈ (assign_site_ids w fuel root).entities := by
    rw [hents]
    exact hmem
  have hvW : ∀ eo ∈ (assign_site_ids w fuel root).entities, ∀ v,
      visualWrite (assign_site_ids w fuel root) fuel root eo ≠ some (k, v) := by
    intro eo heo v hcon
    have heq : eo = e := huniq eo (by rw [← hents]; exact heo)
      (visualWrite_key _ fuel root eo hcon)
    rw [heq, visualWrite_none_of_missing_parent _ fuel root e p hp hpid] at hcon
    exact Option.noConfusion hcon
  have hcW : ∀ eo ∈ (assign_site_ids w fuel root).entities, ∀ v,
      collisionWrite (assign_site_ids w fuel root) fuel root eo ≠ some (k, v) := by
    intro eo heo v hcon
    have heq : eo = e := huniq eo (by rw [← hents]; exact heo)
      (collisionWrite_key _ fuel root eo hcon)
    rw [heq, collisionWrite_none_of_missing_parent _ fuel root e p hp hpid] at hcon
    exact Option.noConfusion hcon
  have haW : ∀ eo ∈ (assign_site_ids w fuel root).entities, ∀ v,
      anchorWrite (assign_site_ids w fuel root) fuel root eo ≠ some (k, v) := by
    intro eo heo v hcon
    have heq : eo = e := huniq eo (by rw [← hents]; exact heo)
      (anchorWrite_key _ fuel root eo hcon)
    rw [heq, anchorWrite_none_of_missing_parent _ fuel root e p hp hpid] at hcon
    exact Option.noConfusion hcon
  have hiW : ∀ eo ∈ (assign_site_ids w fuel root).entities, ∀ v,
      inertialWrite (assign_site_ids w fuel root) fuel root eo ≠ some (k, v) := by
    intro eo heo v hcon
    have heq : eo = e := huniq eo (by rw [← hents]; exact heo)
      (inertialWrite_key _ fuel root eo hcon)
    rw [heq, inertialWrite_none_of_missing_parent _ fuel root e p hp hpid] at hcon
    exact Option.noConfusion hcon
  have hjW : ∀ eo ∈ (assign_site_ids w fuel root).entities, ∀ v,
      jointWrite (assign_site_ids w fuel root) fuel root eo ≠ some (k, v) := by
    intro eo heo v hcon
    have heq : eo = e := huniq eo (by rw [← hents]; exact heo)
      (jointWrite_key _ fuel root eo hcon)
    rw [heq, jointWrite_none_of_missing_parent _ fuel root e p hp hpid] at hcon
    exact Option.noConfusion hcon
  refine ⟨(projectionPasses (assign_site_ids w fuel root) fuel root nm).1,
    by rw [hgen], ?_, ?_, ?_, ?_, ?_, ?_⟩
  · unfold projectionPasses
    dsimp only
    rw [passes_frames_lookup _ fuel root _ _ k haW]
    rfl
  · unfold projectionPasses
    dsimp only
    rw [passes_inertias_lookup _ fuel root _ _ k hiW]
    rfl
  · unfold projectionPasses
    dsimp only
    rw [passes_joints_lookup _ fuel root _ _ k hjW]
    rfl
  · unfold projectionPasses
    dsimp only
    rw [passes_visuals_lookup _ fuel root _ _ k hvW]
    rfl
  · unfold projectionPasses
    dsimp only
    rw [passes_collisions_lookup _ fuel root _ _ k hcW]
    rfl
  · rw [hgen]
    unfold projectionPasses
    dsimp only
    rcases hconsider with hcm | hca | hci | hcj
    · obtain ⟨row, hq⟩ := Option.isSome_iff_exists.mp hcm
      obtain ⟨name, source, primitive, pose, id, pe, sc⟩ := row
      refine ⟨PassKind.visual, ?_⟩
      apply foldl_log_mem (processJoint_logMono _ fuel root)
      apply foldl_log_mem (processInertial_logMono _ fuel root)
      apply foldl_log_mem (processAnchor_logMono _ fuel root)
      exact foldl_log_mem_of_step (processModel_logMono _ fuel root) _ _ _ e hmem₁
        (fun acc₀ => processModel_logs_missing_parent _ fuel root e p hq hin hp hpid acc₀)
    · obtain ⟨row, hq⟩ := Option.isSome_iff_exists.mp hca
      obtain ⟨a, name, id, pe⟩ := row
      refine ⟨PassKind.anchor, ?_⟩
      apply foldl_log_mem (processJoint_logMono _ fuel root)
      apply foldl_log_mem (processInertial_logMono _ fuel root)
      exact foldl_log_mem_of_step (processAnchor_logMono _ fuel root) _ _ _ e hmem₁
        (fun acc₀ => processAnchor_logs_missing_parent _ fuel root e p hq hin hp hpid acc₀)
    · obtain ⟨row, hq⟩ := Option.isSome_iff_exists.mp hci
      obtain ⟨pose, mass, moment, id, pe⟩ := row
      refine ⟨PassKind.inertial, ?_⟩
      apply foldl_log_mem (processJoint_logMono _ fuel root)
      exact foldl_log_mem_of_step (processInertial_logMono _ fuel root) _ _ _ e hmem₁
        (fun acc₀ => processInertial_logs_missing_parent _ fuel root e p hq hin hp hpid acc₀)
    · obtain ⟨row, hq⟩ := Option.isSome_iff_exists.mp hcj
      obtain ⟨props, name, id, pe⟩ := row
      refine ⟨PassKind.joint, ?_⟩
      exact foldl_log_mem_of_step (processJoint_logMono _ fuel root) _ _ _ e hmem₁
        (fun acc₀ => processJoint_logs_missing_parent _ fuel root e p hq hin hp hpid acc₀)

/-- A concrete world where visual entity 2 has parent 1 that carries no exportable
marker, so 1 gets no stable ID. -/
def missingParentWorld : World where
  entities := [0, 1, 2]
  children := fun e => if e = 0 then [1] else if e = 1 then [2] else []
  parent := fun e => if e = 1 then some 0 else if e = 2 then some 1 else none
  frameMarker := fun _ => false
  visualMeshMarker := fun e => e == 2
  collisionMeshMarker := fun _ => false
  pending := fun _ => false
  jointProperties := fun _ => none
  moment := fun _ => none
  mass := fun _ => none
  anchor := fun _ => none
  pose := fun e => if e = 2 then some 7 else none
  assetSource := fun e => if e = 2 then some 8 else none
  primitiveShape := fun _ => none
  scale := fun _ => none
  nameInWorkcell := fun e => if e = 2 then some 9 else none
  nameOfWorkcell := fun e => if e = 0 then some 3 else none
  siteID := fun _ => none

/-- C3 witness: the missing-parent theorem applied to the concrete world. -/
theorem C3_generate_workcell_missing_parent_excluded_witness :
    (missingParentWorld.nameOfWorkcell 0 = some 3 ∧
     2 ∈ missingParentWorld.entities ∧
     (assign_site_ids missingParentWorld 5 0).parent 2 = some 1 ∧
     (assign_site_ids missingParentWorld 5 0).siteID 1 = none ∧
     (assign_site_ids missingParentWorld 5 0).siteID 2 = some 1 ∧
     parent_in_workcell (assign_site_ids missingParentWorld 5 0) 5 2 0 = true ∧
     (modelsQuery (assign_site_ids missingParentWorld 5 0) 2).isSome = true ∧
     (∀ eo ∈ missingParentWorld.entities,
       (assign_site_ids missingParentWorld 5 0).siteID eo = some 1 → eo = 2)) ∧
    (∃ doc, (generate_workcell missingParentWorld 5 0).result = Except.ok doc ∧
      btreeLookup doc.frames 1 = none ∧
      btreeLookup doc.inertias 1 = none ∧
      btreeLookup doc.joints 1 = none ∧
      btreeLookup doc.visuals 1 = none ∧
      btreeLookup doc.collisions 1 = none ∧
      ∃ kind, LogEntry.parentNotFound kind 1
        ∈ (generate_workcell missingParentWorld 5 0).log) :=
  ⟨by decide,
    C3_generate_workcell_missing_parent_excluded missingParentWorld 5 0 2 1 1 3
      (by decide) (by decide) (by decide) (by decide) (by decide) (by decide)
      (Or.inl (by decide)) (by decide)⟩

/-- A models-query row implies one of the two mesh markers is set. -/
theorem modelsQuery_marker (w : World) (e : Entity)
    {name : NameInWorkcell} {source : Option AssetSource}
    {primitive : Option PrimitiveShape} {pose : Pose} {id : Nat} {parentEnt : Entity}
    {scale : Option Scale}
    (h : modelsQuery w e = some (name, source, primitive, pose, id, parentEnt, scale)) :
    (w.visualMeshMarker e || w.collisionMeshMarker e) = true := by
  unfold modelsQuery at h
  cases hn : w.nameInWorkcell e <;> cases hpo : w.pose e <;> cases hsi : w.siteID e <;>
    cases hpa : w.parent e <;> simp only [hn, hpo, hsi, hpa] at h <;>
    try exact Option.noConfusion h
  split at h
  · rename_i hcond
    exact (Bool.and_eq_true_iff.mp hcond).1
  · exact Option.noConfusion h

/-- A models-query row reports the own asset-source, primitive-shape and
scale component tables. -/
theorem modelsQuery_components (w : World) (e : Entity)
    {name : NameInWorkcell} {source : Option AssetSource}
    {primitive : Option PrimitiveShape} {pose : Pose} {id : Nat} {parentEnt : Entity}
    {scale : Option Scale}
    (h : modelsQuery w e = some (name, source, primitive, pose, id, parentEnt, scale)) :
    w.assetSource e = source ∧ w.primitiveShape e = primitive ∧ w.scale e = scale := by
  unfold modelsQuery at h
  cases hn : w.nameInWorkcell e <;> cases hpo : w.pose e <;> cases hsi : w.siteID e <;>
    cases hpa : w.parent e <;> simp only [hn, hpo, hsi, hpa] at h <;>
    try exact Option.noConfusion h
  split at h
  · injection h with h₀
    simp only [Prod.mk.injEq] at h₀
    exact ⟨h₀.2.1, h₀.2.2.1, h₀.2.2.2.2.2.2⟩
  · exact Option.noConfusion h

/-- If entity `e` writes `(k, v)` to the visuals map and every visuals write to key
`k` writes `v`, the final visuals lookup at `k` after all four passes is `v`. -/
theorem passes_visuals_write (w₁ : World) (fuel : Nat) (root : Entity)
    (es : List Entity) (acc : Workcell × List LogEntry) (k : Nat)
    (v : Parented WorkcellModel) (e : Entity) (he : e ∈ es)
    (hwe : visualWrite w₁ fuel root e = some (k, v))
    (hw : ∀ e₀ ∈ es, ∀ v₀, visualWrite w₁ fuel root e₀ = some (k, v₀) → v₀ = v) :
    btreeLookup (((es.foldl (processJoint w₁ fuel root)
        (es.foldl (processInertial w₁ fuel root)
          (es.foldl (processAnchor w₁ fuel root)
            (es.foldl (processModel w₁ fuel root) acc)))).1).visuals) k
      = some v := by
  rw [foldl_lookup_of_no_write (stepWrites_of_keeps (processJoint_keeps_visuals w₁ fuel root))
    es _ k (fun e₀ he₀ v₀ hc₀ => Option.noConfusion hc₀)]
  rw [foldl_lookup_of_no_write (stepWrites_of_keeps (processInertial_keeps_visuals w₁ fuel root))
    es _ k (fun e₀ he₀ v₀ hc₀ => Option.noConfusion hc₀)]
  rw [foldl_lookup_of_no_write (stepWrites_of_keeps (processAnchor_keeps_visuals w₁ fuel root))
    es _ k (fun e₀ he₀ v₀ hc₀ => Option.noConfusion hc₀)]
  exact foldl_lookup_of_write (processModel_writes_visuals w₁ fuel root) es acc k v e he
    hwe hw

/-- If entity `e` writes `(k, v)` to the collisions map and every collisions write to
key `k` writes `v`, the final collisions lookup at `k` after all four passes is `v`. -/
theorem passes_collisions_write (w₁ : World) (fuel : Nat) (root : Entity)
    (es : List Entity) (acc : Workcell × List LogEntry) (k : Nat)
    (v : Parented WorkcellModel) (e : Entity) (he : e ∈ es)
    (hwe : collisionWrite w₁ fuel root e = some (k, v))
    (hw : ∀ e₀ ∈ es, ∀ v₀, collisionWrite w₁ fuel root e₀ = some (k, v₀) → v₀ = v) :
    btreeLookup (((es.foldl (processJoint w₁ fuel root)
        (es.foldl (processInertial w₁ fuel root)
          (es.foldl (processAnchor w₁ fuel root)
            (es.foldl (processModel w₁ fuel root) acc)))).1).collisions) k
      = some v := by
  rw [foldl_lookup_of_no_write (stepWrites_of_keeps (processJoint_keeps_collisions w₁ fuel root))
    es _ k (fun e₀ he₀ v₀ hc₀ => Option.noConfusion hc₀)]
  rw [foldl_lookup_of_no_write (stepWrites_of_keeps (processInertial_keeps_collisions w₁ fuel root))
    es _ k (fun e₀ he₀ v₀ hc₀ => Option.noConfusion hc₀)]
  rw [foldl_lookup_of_no_write (stepWrites_of_keeps (processAnchor_keeps_collisions w₁ fuel root))
    es _ k (fun e₀ he₀ v₀ hc₀ => Option.noConfusion hc₀)]
  exact foldl_lookup_of_write (processModel_writes_collisions w₁ fuel root) es acc k v e he
    hwe hw

/-- A visual/collision entity inside the workcell with an assigned parent but neither
asset source nor primitive shape makes the loop log the developer error. -/
theorem processModel_logs_no_geometry (w : World) (fuel : Nat) (root e : Entity)
    {name : NameInWorkcell} {pose : Pose} {id : Nat} {parentEnt : Entity}
    {scale : Option Scale} {parentID : Nat}
    (hq : modelsQuery w e = some (name, none, none, pose, id, parentEnt, scale))
    (hin : parent_in_workcell w fuel e root = true)
    (hpid : w.siteID parentEnt = some parentID)
    (acc : Workcell × List LogEntry) :
    LogEntry.devErrorNoGeometry ∈ (processModel w fuel root acc e).2 := by
  unfold processModel
  rw [hq]
  dsimp only
  rw [if_pos hin, hpid]
  dsimp only
  simp

/-- With no asset source and no primitive shape, the visuals/collisions loop writes
nothing to the visuals map for `e`. -/
theorem visualWrite_none_of_no_geometry (w : World) (fuel : Nat) (root e : Entity)
    {name : NameInWorkcell} {pose : Pose} {id : Nat} {parentEnt : Entity}
    {scale : Option Scale}
    (hq : modelsQuery w e = some (name, none, none, pose, id, parentEnt, scale)) :
    visualWrite w fuel root e = none := by
  unfold visualWrite
  rw [hq]
  dsimp only
  by_cases hin : parent_in_workcell w fuel e root = true
  · rw [if_pos hin]
    cases hsi : w.siteID parentEnt with
    | none => rfl
    | some parentID => rfl
  · rw [if_neg hin]

/-- With no asset source and no primitive shape, the visuals/collisions loop writes
nothing to the collisions map for `e`. -/
theorem collisionWrite_none_of_no_geometry (w : World) (fuel : Nat) (root e : Entity)
    {name : NameInWorkcell} {pose : Pose} {id : Nat} {parentEnt : Entity}
    {scale : Option Scale}
    (hq : modelsQuery w e = some (name, none, none, pose, id, parentEnt, scale)) :
    collisionWrite w fuel root e = none := by
  unfold collisionWrite
  rw [hq]
  dsimp only
  by_cases hin : parent_in_workcell w fuel e root = true
  · rw [if_pos hin]
    cases hsi : w.siteID parentEnt with
    | none => rfl
    | some parentID => rfl
  · rw [if_neg hin]

/-- C4: for a visual/collision entity of the workcell with an assigned parent, the
geometry payload in the output document is the mesh variant (asset source plus
optional scale) when an asset source is present, else the primitive variant when a
primitive shape is present; with neither component the entity is excluded from both
model maps and the developer error is logged. -/
theorem C4_generate_workcell_geometry_variant
    (w : World) (fuel : Nat) (root e p : Entity) (k pid : Nat) (nm : NameOfWorkcell)
    (name : NameInWorkcell) (source : Option AssetSource)
    (primitive : Option PrimitiveShape) (pose : Pose) (scale : Option Scale)
    (hn : w.nameOfWorkcell root = some nm)
    (hmem : e ∈ w.entities)
    (hq : modelsQuery (assign_site_ids w fuel root) e
      = some (name, source, primitive, pose, k, p, scale))
    (hin : parent_in_workcell (assign_site_ids w fuel root) fuel e root = true)
    (hpid : (assign_site_ids w fuel root).siteID p = some pid)
    (huniq : ∀ eo ∈ w.entities,
      (assign_site_ids w fuel root).siteID eo = some k → eo = e) :
    ∃ doc, (generate_workcell w fuel root).result = Except.ok doc ∧
      (∀ src, source = some src →
        btreeLookup
          (if (assign_site_ids w fuel root).visualMeshMarker e = true
            then doc.visuals else doc.collisions) k
          = some ⟨pid, ⟨name, Geometry.mesh src scale, pose⟩⟩) ∧
      (∀ prim, source = none → primitive = some prim →
        btreeLookup
          (if (assign_site_ids w fuel root).visualMeshMarker e = true
            then doc.visuals else doc.collisions) k
          = some ⟨pid, ⟨name, Geometry.primitive prim, pose⟩⟩) ∧
      (source = none → primitive = none →
        btreeLookup doc.visuals k = none ∧ btreeLookup doc.collisions k = none ∧
        LogEntry.devErrorNoGeometry ∈ (generate_workcell w fuel root).log) := by
  have hn₁ : (assign_site_ids w fuel root).nameOfWorkcell root = some nm := by
    rw [assign_site_ids_nameOfWorkcell]
    exact hn
  have hgen : generate_workcell w fuel root =
      ⟨assign_site_ids w fuel root,
        (projectionPasses (assign_site_ids w fuel root) fuel root nm).2,
        Except.ok (projectionPasses (assign_site_ids w fuel root) fuel root nm).1⟩ := by
    unfold generate_workcell
    dsimp only
    rw [hn₁]
  have hents : (assign_site_ids w fuel root).entities = w.entities :=
    assign_site_ids_entities w fuel root
  have hmem₁ : e ∈ (assign_site_ids w fuel root).entities := by
    rw [hents]
    exact hmem
  refine ⟨(projectionPasses (assign_site_ids w fuel root) fuel root nm).1,
    by rw [hgen], ?_, ?_, ?_⟩
  · intro src hsrc
    subst hsrc
    by_cases hv : (assign_site_ids w fuel root).visualMeshMarker e = true
    · rw [if_pos hv]
      have hwv : visualWrite (assign_site_ids w fuel root) fuel root e
          = some (k, ⟨pid, ⟨name, Geometry.mesh src scale, pose⟩⟩) := by
        unfold visualWrite
        rw [hq]
        dsimp only
        rw [if_pos hin, hpid]
        dsimp only
        rw [if_pos hv]
      have hwAll : ∀ e₀ ∈ (assign_site_ids w fuel root).entities, ∀ v₀,
          visualWrite (assign_site_ids w fuel root) fuel root e₀ = some (k, v₀) →
          v₀ = ⟨pid, ⟨name, Geometry.mesh src scale, pose⟩⟩ := by
        intro e₀ he₀ v₀ hc₀
        have heq : e₀ = e := huniq e₀ (by rw [← hents]; exact he₀)
          (visualWrite_key _ fuel root e₀ hc₀)
        rw [heq, hwv] at hc₀
        injection hc₀ with h₁
        exact (congrArg Prod.snd h₁).symm
      unfold projectionPasses
      dsimp only
      exact passes_visuals_write _ fuel root _ _ k _ e hmem₁ hwv hwAll
    · rw [if_neg hv]
      have hcm : (assign_site_ids w fuel root).collisionMeshMarker e = true := by
        rcases Bool.or_eq_true_iff.mp (modelsQuery_marker _ e hq) with h₁ | h₁
        · exact absurd h₁ hv
        · exact h₁
      have hwc : collisionWrite (assign_site_ids w fuel root) fuel root e
          = some (k, ⟨pid, ⟨name, Geometry.mesh src scale, pose⟩⟩) := by
        unfold collisionWrite
        rw [hq]
        dsimp only
        rw [if_pos hin, hpid]
        dsimp only
        rw [if_neg hv, if_pos hcm]
      have hwAll : ∀ e₀ ∈ (assign_site_ids w fuel root).entities, ∀ v₀,
          collisionWrite (assign_site_ids w fuel root) fuel root e₀ = some (k, v₀) →
          v₀ = ⟨pid, ⟨name, Geometry.mesh src scale, pose⟩⟩ := by
        intro e₀ he₀ v₀ hc₀
        have heq : e₀ = e := huniq e₀ (by rw [← hents]; exact he₀)
          (collisionWrite_key _ fuel root e₀ hc₀)
        rw [heq, hwc] at hc₀
        injection hc₀ with h₁
        exact (congrArg Prod.snd h₁).symm
      unfold projectionPasses
      dsimp only
      exact passes_collisions_write _ fuel root _ _ k _ e hmem₁ hwc hwAll
  · intro prim hsrc hprim
    subst hsrc
    subst hprim
    by_cases hv : (assign_site_ids w fuel root).visualMeshMarker e = true
    · rw [if_pos hv]
      have hwv : visualWrite (assign_site_ids w fuel root) fuel root e
          = some (k, ⟨pid, ⟨name, Geometry.primitive prim, pose⟩⟩) := by
        unfold visualWrite
        rw [hq]
        dsimp only
        rw [if_pos hin, hpid]
        dsimp only
        rw [if_pos hv]
      have hwAll : ∀ e₀ ∈ (assign_site_ids w fuel root).entities, ∀ v₀,
          visualWrite (assign_site_ids w fuel root) fuel root e₀ = some (k, v₀) →
          v₀ = ⟨pid, ⟨name, Geometry.primitive prim, pose⟩⟩ := by
        intro e₀ he₀ v₀ hc₀
        have heq : e₀ = e := huniq e₀ (by rw [← hents]; exact he₀)
          (visualWrite_key _ fuel root e₀ hc₀)
        rw [heq, hwv] at hc₀
        injection hc₀ with h₁
        exact (congrArg Prod.snd h₁).symm
      unfold projectionPasses
      dsimp only
      exact passes_visuals_write _ fuel root _ _ k _ e hmem₁ hwv hwAll
    · rw [if_neg hv]
      have hcm : (assign_site_ids w fuel root).collisionMeshMarker e = true := by
        rcases Bool.or_eq_true_iff.mp (modelsQuery_marker _ e hq) with h₁ | h₁
        · exact absurd h₁ hv
        · exact h₁
      have hwc : collisionWrite (assign_site_ids w fuel root) fuel root e
          = some (k, ⟨pid, ⟨name, Geometry.primitive prim, pose⟩⟩) := by
        unfold collisionWrite
        rw [hq]
        dsimp only
        rw [if_pos hin, hpid]
        dsimp only
        rw [if_neg hv, if_pos hcm]
      have hwAll : ∀ e₀ ∈ (assign_site_ids w fuel root).entities, ∀ v₀,
          collisionWrite (assign_site_ids w fuel root) fuel root e₀ = some (k, v₀) →
          v₀ = ⟨pid, ⟨name, Geometry.primitive prim, pose⟩⟩ := by
        intro e₀ he₀ v₀ hc₀
        have heq : e₀ = e := huniq e₀ (by rw [← hents]; exact he₀)
          (collisionWrite_key _ fuel root e₀ hc₀)
        rw [heq, hwc] at hc₀
        injection hc₀ with h₁
        exact (congrArg Prod.snd h₁).symm
      unfold projectionPasses
      dsimp only
      exact passes_collisions_write _ fuel root _ _ k _ e hmem₁ hwc hwAll
  · intro hsrc hprim
    subst hsrc
    subst hprim
    have hwvN : visualWrite (assign_site_ids w fuel root) fuel root e = none :=
      visualWrite_none_of_no_geometry _ fuel root e hq
    have hwcN : collisionWrite (assign_site_ids w fuel root) fuel root e = none :=
      collisionWrite_none_of_no_geometry _ fuel root e hq
    have hvAll : ∀ eo ∈ (assign_site_ids w fuel root).entities, ∀ v,
        visualWrite (assign_site_ids w fuel root) fuel root eo ≠ some (k, v) := by
      intro eo heo v hcon
      have heq : eo = e := huniq eo (by rw [← hents]; exact heo)
        (visualWrite_key _ fuel root eo hcon)
      rw [heq, hwvN] at hcon
      exact Option.noConfusion hcon
    have hcAll : ∀ eo ∈ (assign_site_ids w fuel root).entities, ∀ v,
        collisionWrite (assign_site_ids w fuel root) fuel root eo ≠ some (k, v) := by
      intro eo heo v hcon
      have heq : eo = e := huniq eo (by rw [← hents]; exact heo)
        (collisionWrite_key _ fuel root eo hcon)
      rw [heq, hwcN] at hcon
      exact Option.noConfusion hcon
    refine ⟨?_, ?_, ?_⟩
    · unfold projectionPasses
      dsimp only
      rw [passes_visuals_lookup _ fuel root _ _ k hvAll]
      rfl
    · unfold projectionPasses
      dsimp only
      rw [passes_collisions_lookup _ fuel root _ _ k hcAll]
      rfl
    · rw [hgen]
      unfold projectionPasses
      dsimp only
      apply foldl_log_mem (processJoint_logMono _ fuel root)
      apply foldl_log_mem (processInertial_logMono _ fuel root)
      apply foldl_log_mem (processAnchor_logMono _ fuel root)
      exact foldl_log_mem_of_step (processModel_logMono _ fuel root) _ _ _ e hmem₁
        (fun acc₀ => processModel_logs_no_geometry _ fuel root e hq hin hpid acc₀)

/-- C4 witness: the geometry-variant theorem applied to the sample world (visual
entity 2 with an asset source, parented to frame 1). -/
theorem C4_generate_workcell_geometry_variant_witness :
    (sampleWorld.nameOfWorkcell 0 = some 66 ∧
     2 ∈ sampleWorld.entities ∧
     modelsQuery (assign_site_ids sampleWorld 5 0) 2
       = some (55, some 33, none, 22, 2, 1, none) ∧
     parent_in_workcell (assign_site_ids sampleWorld 5 0) 5 2 0 = true ∧
     (assign_site_ids sampleWorld 5 0).siteID 1 = some 1 ∧
     (∀ eo ∈ sampleWorld.entities,
       (assign_site_ids sampleWorld 5 0).siteID eo = some 2 → eo = 2)) ∧
    (∃ doc, (generate_workcell sampleWorld 5 0).result = Except.ok doc ∧
      (∀ src, (some 33 : Option AssetSource) = some src →
        btreeLookup
          (if (assign_site_ids sampleWorld 5 0).visualMeshMarker 2 = true
            then doc.visuals else doc.collisions) 2
          = some ⟨1, ⟨55, Geometry.mesh src none, 22⟩⟩) ∧
      (∀ prim, (some 33 : Option AssetSource) = none →
        (none : Option PrimitiveShape) = some prim →
        btreeLookup
          (if (assign_site_ids sampleWorld 5 0).visualMeshMarker 2 = true
            then doc.visuals else doc.collisions) 2
          = some ⟨1, ⟨55, Geometry.primitive prim, 22⟩⟩) ∧
      ((some 33 : Option AssetSource) = none → (none : Option PrimitiveShape) = none →
        btreeLookup doc.visuals 2 = none ∧ btreeLookup doc.collisions 2 = none ∧
        LogEntry.devErrorNoGeometry ∈ (generate_workcell sampleWorld 5 0).log)) :=
  ⟨by decide,
    C4_generate_workcell_geometry_variant sampleWorld 5 0 2 1 2 1 66 55 (some 33) none
      22 none (by decide) (by decide) (by decide) (by decide) (by decide) (by decide)⟩

/-- A workcell of three entities: root 0 with the workcell name, frame child 1
(frame marker, anchor, name), and visual grandchild 2 (visual marker, name, pose,
asset source) parented to the frame.  Payload values are arbitrary. -/
def oneFrameOneVisualWorld (a nmf nmv nroot src pose : Nat) : World where
  entities := [0, 1, 2]
  children := fun e => if e = 0 then [1] else if e = 1 then [2] else []
  parent := fun e => if e = 1 then some 0 else if e = 2 then some 1 else none
  frameMarker := fun e => e == 1
  visualMeshMarker := fun e => e == 2
  collisionMeshMarker := fun _ => false
  pending := fun _ => false
  jointProperties := fun _ => none
  moment := fun _ => none
  mass := fun _ => none
  anchor := fun e => if e = 1 then some a else none
  pose := fun e => if e = 2 then some pose else none
  assetSource := fun e => if e = 2 then some src else none
  primitiveShape := fun _ => none
  scale := fun _ => none
  nameInWorkcell := fun e => if e = 1 then some nmf else if e = 2 then some nmv else none
  nameOfWorkcell := fun e => if e = 0 then some nroot else none
  siteID := fun _ => none

/-- C5: for a root with one frame child and one visual-mesh grandchild parented to
the frame, the generated document has exactly one frame entry, keyed by the stable frame
ID 1 with parent 0, and exactly one visual entry, keyed by the stable visual
ID 2 with parent equal to the stable ID of the frame 1. -/
theorem C5_generate_workcell_frame_visual_example (a nmf nmv nroot src pose : Nat) :
    (assign_site_ids (oneFrameOneVisualWorld a nmf nmv nroot src pose) 5 0).siteID 0
      = some 0 ∧
    (assign_site_ids (oneFrameOneVisualWorld a nmf nmv nroot src pose) 5 0).siteID 1
      = some 1 ∧
    (assign_site_ids (oneFrameOneVisualWorld a nmf nmv nroot src pose) 5 0).siteID 2
      = some 2 ∧
    ∃ doc,
      (generate_workcell (oneFrameOneVisualWorld a nmf nmv nroot src pose) 5 0).result
        = Except.ok doc ∧
      doc.frames = [(1, ⟨0, ⟨a, nmf⟩⟩)] ∧
      doc.visuals = [(2, ⟨1, ⟨nmv, Geometry.mesh src none, pose⟩⟩)] ∧
      doc.inertias = [] ∧ doc.joints = [] ∧ doc.collisions = [] := by
  refine ⟨rfl, rfl, rfl,
    ⟨nroot, [(1, ⟨0, ⟨a, nmf⟩⟩)], [], [],
      [(2, ⟨1, ⟨nmv, Geometry.mesh src none, pose⟩⟩)], []⟩,
    rfl, rfl, rfl, rfl, rfl, rfl⟩

/-- Opaque `PlaceableObject` payload. -/
abbrev PlaceableObject := Nat

/-- The `SelectorInput` component spawned by the placement API. -/
inductive SelectorInput where
  | placeObject3d (object : PlaceableObject) (parent : Option Entity) (workspace : Entity)
  | replaceParent3d (object : Entity) (workspace : Entity)
  deriving DecidableEq

/-- Which selection workflow a `RunSelector` event targets. -/
inductive SelectorService where
  | placeObject3dService
  | replaceParent3dService
  deriving DecidableEq

/-- The `RunSelector` event. -/
structure RunSelector where
  selector : SelectorService
  input : Option Entity
  deriving DecidableEq

/-- The state touched by the `ObjectPlacement` system param: the current workspace
and selection resources, the command queue effects (spawned entities, sent events),
and the warning log. -/
structure PlacementState where
  workspaceRoot : Option Entity
  selection : Option Entity
  nextEntity : Entity
  spawned : List (Entity × SelectorInput)
  events : List RunSelector
  warnings : List LogEntry
  deriving DecidableEq

/-- Method `ObjectPlacement::place_object_3d`: bail out with a warning when no workspace is
active, otherwise spawn a `SelectorInput` state entity and send `RunSelector`. -/
def place_object_3d (s : PlacementState) (object : PlaceableObject) : PlacementState :=
  match s.workspaceRoot with
  | none => { s with warnings := s.warnings ++ [LogEntry.cannotSpawnOutsideWorkspace] }
  | some workspace =>
    { s with
      nextEntity := s.nextEntity + 1
      spawned := s.spawned
        ++ [(s.nextEntity, SelectorInput.placeObject3d object s.selection workspace)]
      events := s.events
        ++ [⟨SelectorService.placeObject3dService, some s.nextEntity⟩] }

/-- Method `ObjectPlacement::replace_parent_3d`: spawn a `SelectorInput` state entity and
send `RunSelector`, with no workspace guard. -/
def replace_parent_3d (s : PlacementState) (object : Entity) (workspace : Entity) :
    PlacementState :=
  { s with
    nextEntity := s.nextEntity + 1
    spawned := s.spawned ++ [(s.nextEntity, SelectorInput.replaceParent3d object workspace)]
    events := s.events ++ [⟨SelectorService.replaceParent3dService, some s.nextEntity⟩] }

/-- C6 counterexample: with no active workspace, `replace_parent_3d` still spawns a
state entity and sends a `RunSelector` event, and logs no warning — refuting the
claim that both entry points fail fast without a workspace. -/
theorem C6_counterexample_replace_parent_no_guard :
    (PlacementState.mk none none 0 [] [] []).workspaceRoot = none ∧
    (replace_parent_3d (PlacementState.mk none none 0 [] [] []) 5 7).spawned ≠ [] ∧
    (replace_parent_3d (PlacementState.mk none none 0 [] [] []) 5 7).events ≠ [] ∧
    (replace_parent_3d (PlacementState.mk none none 0 [] [] []) 5 7).warnings = [] := by
  decide

/-- C6 (amended): with no active workspace, `place_object_3d` only logs a warning
and mutates nothing, while `replace_parent_3d` — which takes its workspace as an
explicit argument — unconditionally spawns its state entity and sends its event
without logging. -/
theorem C6_placement_workspace_guard (s : PlacementState) (object : PlaceableObject)
    (h : s.workspaceRoot = none) :
    place_object_3d s object
      = { s with warnings := s.warnings ++ [LogEntry.cannotSpawnOutsideWorkspace] } ∧
    (place_object_3d s object).spawned = s.spawned ∧
    (place_object_3d s object).events = s.events ∧
    (∀ obj ws, (replace_parent_3d s obj ws).spawned
        = s.spawned ++ [(s.nextEntity, SelectorInput.replaceParent3d obj ws)] ∧
      (replace_parent_3d s obj ws).events
        = s.events ++ [⟨SelectorService.replaceParent3dService, some s.nextEntity⟩] ∧
      (replace_parent_3d s obj ws).warnings = s.warnings) := by
  refine ⟨?_, ?_, ?_, ?_⟩
  · unfold place_object_3d
    rw [h]
  · unfold place_object_3d
    rw [h]
  · unfold place_object_3d
    rw [h]
  · intro obj ws
    exact ⟨rfl, rfl, rfl⟩

/-- C6 witness: the guard theorem applied to a concrete workspace-less state. -/
theorem C6_placement_workspace_guard_witness :
    (PlacementState.mk none (some 4) 0 [] [] []).workspaceRoot = none ∧
    (place_object_3d (PlacementState.mk none (some 4) 0 [] [] []) 9
      = { PlacementState.mk none (some 4) 0 [] [] [] with
          warnings := [] ++ [LogEntry.cannotSpawnOutsideWorkspace] } ∧
    (place_object_3d (PlacementState.mk none (some 4) 0 [] [] []) 9).spawned = [] ∧
    (place_object_3d (PlacementState.mk none (some 4) 0 [] [] []) 9).events = [] ∧
    (∀ obj ws,
      (replace_parent_3d (PlacementState.mk none (some 4) 0 [] [] []) obj ws).spawned
        = [] ++ [(0, SelectorInput.replaceParent3d obj ws)] ∧
      (replace_parent_3d (PlacementState.mk none (some 4) 0 [] [] []) obj ws).events
        = [] ++ [⟨SelectorService.replaceParent3dService, some 0⟩] ∧
      (replace_parent_3d (PlacementState.mk none (some 4) 0 [] [] []) obj ws).warnings
        = [])) :=
  ⟨rfl, C6_placement_workspace_guard (PlacementState.mk none (some 4) 0 [] [] []) 9 rfl⟩

/-- The `ExportFormat` of a save request. -/
inductive ExportFormat where
  | default
  | urdf
  deriving DecidableEq

/-- The `SaveWorkcell` event: root, destination path, format. -/
structure SaveWorkcell where
  root : Entity
  toFile : Nat
  format : ExportFormat
  deriving DecidableEq

/-- The file-system / serializer / package-exporter environment of the save driver:
whether `File::create`, `Workcell::to_writer` and `export_package` succeed per path. -/
structure SaveEnv where
  fileCreateOk : Nat → Bool
  writeOk : Nat → Bool
  exportOk : Nat → Bool

/-- Body of the `save_workcell` drain loop for one queued request. -/
def save_workcell_step (env : SaveEnv) (fuel : Nat) (acc : World × List LogEntry)
    (ev : SaveWorkcell) : World × List LogEntry :=
  let g := generate_workcell acc.1 fuel ev.root
  match g.result with
  | Except.error _ =>
    (g.world, acc.2 ++ g.log ++ [LogEntry.unableToCompileWorkcell ev.root])
  | Except.ok _ =>
    match ev.format with
    | ExportFormat.default =>
      if env.fileCreateOk ev.toFile then
        if env.writeOk ev.toFile then
          (g.world, acc.2 ++ g.log
            ++ [LogEntry.savingTo ev.toFile, LogEntry.saveSuccessful ev.toFile])
        else
          (g.world, acc.2 ++ g.log
            ++ [LogEntry.savingTo ev.toFile, LogEntry.saveFailed ev.toFile])
      else
        (g.world, acc.2 ++ g.log
          ++ [LogEntry.savingTo ev.toFile, LogEntry.unableToSaveFile ev.toFile])
    | ExportFormat.urdf =>
      if env.exportOk ev.toFile then
        (g.world, acc.2 ++ g.log ++ [LogEntry.exportSuccessful ev.toFile])
      else
        (g.world, acc.2 ++ g.log ++ [LogEntry.exportFailed ev.toFile])

/-- Function `save_workcell`: drain all queued save events and process each in turn. -/
def save_workcell (env : SaveEnv) (fuel : Nat) (w : World)
    (events : List SaveWorkcell) : World × List LogEntry :=
  events.foldl (save_workcell_step env fuel) (w, [])

/-- C7: a failing request in a save batch is logged and does not abort the batch: a
batch whose first request fails file creation and whose second succeeds still logs
the failure for the first and completes the second. -/
theorem C7_save_workcell_batch_isolation (env : SaveEnv) (fuel : Nat) (w : World)
    (e₁ e₂ : SaveWorkcell)
    (h1fmt : e₁.format = ExportFormat.default)
    (h1gen : ((generate_workcell w fuel e₁.root).result).isOk = true)
    (h1create : env.fileCreateOk e₁.toFile = false)
    (h2fmt : e₂.format = ExportFormat.default)
    (h2gen : ((generate_workcell (generate_workcell w fuel e₁.root).world fuel
      e₂.root).result).isOk = true)
    (h2create : env.fileCreateOk e₂.toFile = true)
    (h2write : env.writeOk e₂.toFile = true) :
    LogEntry.unableToSaveFile e₁.toFile ∈ (save_workcell env fuel w [e₁, e₂]).2 ∧
    LogEntry.saveSuccessful e₂.toFile ∈ (save_workcell env fuel w [e₁, e₂]).2 := by
  obtain ⟨wc₁, hg₁⟩ : ∃ wc, (generate_workcell w fuel e₁.root).result = Except.ok wc := by
    cases hr : (generate_workcell w fuel e₁.root).result with
    | error err =>
      rw [hr] at h1gen
      exact absurd h1gen (by simp [Except.isOk, Except.toBool])
    | ok wc => exact ⟨wc, rfl⟩
  obtain ⟨wc₂, hg₂⟩ : ∃ wc, (generate_workcell (generate_workcell w fuel e₁.root).world
      fuel e₂.root).result = Except.ok wc := by
    cases hr : (generate_workcell (generate_workcell w fuel e₁.root).world fuel
        e₂.root).result with
    | error err =>
      rw [hr] at h2gen
      exact absurd h2gen (by simp [Except.isOk, Except.toBool])
    | ok wc => exact ⟨wc, rfl⟩
  unfold save_workcell
  simp only [List.foldl_cons, List.foldl_nil]
  unfold save_workcell_step
  simp only [hg₁, h1fmt, h1create, hg₂, h2fmt, h2create, h2write, Bool.false_eq_true,
    if_false, if_true, List.nil_append, List.mem_append, List.mem_cons]
  simp

/-- C7 witness: the batch-isolation theorem applied to a concrete two-request batch
over the sample world, with file creation failing for path 1 and succeeding for
path 2. -/
theorem C7_save_workcell_batch_isolation_witness :
    ((SaveWorkcell.mk 0 1 ExportFormat.default).format = ExportFormat.default ∧
     ((generate_workcell sampleWorld 5
       (SaveWorkcell.mk 0 1 ExportFormat.default).root).result).isOk = true ∧
     (SaveEnv.mk (fun p => p == 2) (fun _ => true) (fun _ => true)).fileCreateOk 1
       = false ∧
     ((generate_workcell (generate_workcell sampleWorld 5 0).world 5 0).result).isOk
       = true ∧
     (SaveEnv.mk (fun p => p == 2) (fun _ => true) (fun _ => true)).fileCreateOk 2
       = true ∧
     (SaveEnv.mk (fun p => p == 2) (fun _ => true) (fun _ => true)).writeOk 2
       = true) ∧
    (LogEntry.unableToSaveFile 1
      ∈ (save_workcell (SaveEnv.mk (fun p => p == 2) (fun _ => true) (fun _ => true))
          5 sampleWorld
          [SaveWorkcell.mk 0 1 ExportFormat.default,
           SaveWorkcell.mk 0 2 ExportFormat.default]).2 ∧
    LogEntry.saveSuccessful 2
      ∈ (save_workcell (SaveEnv.mk (fun p => p == 2) (fun _ => true) (fun _ => true))
          5 sampleWorld
          [SaveWorkcell.mk 0 1 ExportFormat.default,
           SaveWorkcell.mk 0 2 ExportFormat.default]).2) :=
  ⟨by refine ⟨rfl, ?_, rfl, ?_, rfl, rfl⟩ <;> decide,
    C7_save_workcell_batch_isolation
      (SaveEnv.mk (fun p => p == 2) (fun _ => true) (fun _ => true)) 5 sampleWorld
      (SaveWorkcell.mk 0 1 ExportFormat.default)
      (SaveWorkcell.mk 0 2 ExportFormat.default)
      rfl (by decide) rfl rfl (by decide) rfl rfl⟩

/-- The `CurrentWorkspace` resource. -/
structure CurrentWorkspace where
  root : Option Entity
  display : Bool
  deriving DecidableEq

/-- The `ChangeCurrentWorkcell` event. -/
structure ChangeCurrentWorkcell where
  root : Entity
  deriving DecidableEq

/-- Function `change_workcell`: read the pending change events, keep only the last, reject a
root without the `NameOfWorkcell` component with a logged error, otherwise set the
current workspace root and enable display. -/
def change_workcell (ws : CurrentWorkspace) (w : World)
    (events : List ChangeCurrentWorkcell) : CurrentWorkspace × List LogEntry :=
  match events.getLast? with
  | none => (ws, [])
  | some cmd =>
    match w.nameOfWorkcell cmd.root with
    | none => (ws, [LogEntry.workspaceChangeNotOpenWorkcell cmd.root])
    | some _ => (⟨some cmd.root, true⟩, [])

/-- C8: a change-current-workcell event whose root is not a recognized open workcell
is rejected with a logged error and leaves the workspace unchanged; a recognized
root becomes the current workspace root with display enabled. -/
theorem C8_change_workcell_validates (ws : CurrentWorkspace) (w : World)
    (events : List ChangeCurrentWorkcell) (cmd : ChangeCurrentWorkcell)
    (hlast : events.getLast? = some cmd) :
    (w.nameOfWorkcell cmd.root = none →
      change_workcell ws w events
        = (ws, [LogEntry.workspaceChangeNotOpenWorkcell cmd.root])) ∧
    (∀ nm, w.nameOfWorkcell cmd.root = some nm →
      change_workcell ws w events = (⟨some cmd.root, true⟩, [])) := by
  unfold change_workcell
  rw [hlast]
  dsimp only
  constructor
  · intro h
    rw [h]
  · intro nm h
    rw [h]

/-- C8 witness: the validation theorem applied to the sample world with pending
events ending in a request for the named root 0. -/
theorem C8_change_workcell_validates_witness :
    ([ChangeCurrentWorkcell.mk 1, ChangeCurrentWorkcell.mk 0].getLast?
      = some (ChangeCurrentWorkcell.mk 0)) ∧
    ((sampleWorld.nameOfWorkcell 0 = none →
      change_workcell (CurrentWorkspace.mk none false) sampleWorld
          [ChangeCurrentWorkcell.mk 1, ChangeCurrentWorkcell.mk 0]
        = (CurrentWorkspace.mk none false,
            [LogEntry.workspaceChangeNotOpenWorkcell 0])) ∧
    (∀ nm, sampleWorld.nameOfWorkcell 0 = some nm →
      change_workcell (CurrentWorkspace.mk none false) sampleWorld
          [ChangeCurrentWorkcell.mk 1, ChangeCurrentWorkcell.mk 0]
        = (⟨some 0, true⟩, []))) :=
  ⟨rfl, C8_change_workcell_validates (CurrentWorkspace.mk none false) sampleWorld
    [ChangeCurrentWorkcell.mk 1, ChangeCurrentWorkcell.mk 0]
    (ChangeCurrentWorkcell.mk 0) rfl⟩

/-- C9: `change_workcell` only acts on the last pending event — any earlier pending
events have no effect — and when the last event names an entity that is not an open
workcell the workspace stays unchanged even if an earlier event named a valid one. -/
theorem C9_change_workcell_last_event_only (ws : CurrentWorkspace) (w : World)
    (es : List ChangeCurrentWorkcell) (last : ChangeCurrentWorkcell) :
    change_workcell ws w (es ++ [last]) = change_workcell ws w [last] ∧
    (w.nameOfWorkcell last.root = none → (change_workcell ws w (es ++ [last])).1 = ws) := by
  have hl : (es ++ [last]).getLast? = some last := by
    simp [List.getLast?_concat]
  constructor
  · unfold change_workcell
    rw [hl]
    rfl
  · intro h
    unfold change_workcell
    rw [hl]
    dsimp only
    rw [h]

/-- C9 witness: with a pending valid request for root 0 followed by a final invalid
request for root 1, the workspace is unchanged. -/
theorem C9_change_workcell_last_event_only_witness :
    sampleWorld.nameOfWorkcell 1 = none ∧
    (change_workcell (CurrentWorkspace.mk (some 7) false) sampleWorld
        ([ChangeCurrentWorkcell.mk 0] ++ [ChangeCurrentWorkcell.mk 1])
      = change_workcell (CurrentWorkspace.mk (some 7) false) sampleWorld
        [ChangeCurrentWorkcell.mk 1] ∧
    (sampleWorld.nameOfWorkcell 1 = none →
      (change_workcell (CurrentWorkspace.mk (some 7) false) sampleWorld
        ([ChangeCurrentWorkcell.mk 0] ++ [ChangeCurrentWorkcell.mk 1])).1
        = CurrentWorkspace.mk (some 7) false)) :=
  ⟨rfl, C9_change_workcell_last_event_only (CurrentWorkspace.mk (some 7) false)
    sampleWorld [ChangeCurrentWorkcell.mk 0] (ChangeCurrentWorkcell.mk 1)⟩

end RmfWorkcell
